import Mathlib

/-!
Verification development for the Volt language core (lexer, parser AST,
tree-walking interpreter).  The definitions below are a shallow embedding of
the interpreter in `interpreter.py` and the string scanner in `lexer.py`:

* `Ast` mirrors the node classes of `ast_nodes.py` that the evaluator claims
  touch (literals, access, expressions, statements, try/catch, throw).
* Runtime values mirror the value taxonomy; lists, dictionaries and instances
  live on explicit heaps inside `State` because the source shares them by
  reference, and environments form a store of frames with parent links.
* The evaluator `evalAst` (and its helpers) follows `Interpreter.execute`
  branch by branch, with a fuel parameter for termination; `Res.timeout`
  means fuel ran out and carries no verdict.  Host-level Python exceptions
  that the interpreter does not itself raise or catch (TypeError, IndexError)
  are modelled as the uncatchable signal `Sig.host`.

Scope: the model covers the constructs the claims quantify over.  Module
loading, class declaration statements, match, for-loops, destructuring and
the string/dict built-in method tables are outside every claim; method calls
on receivers other than instances, lists, dictionaries and numbers, and
calls to the named built-in functions, yield a `Sig.host` marker rather than
a modelled result.
-/

set_option linter.unusedVariables false

namespace Volt

/-- A Python float modelled as an exact, unnormalised fraction (every finite
binary float is rational).  The denominator is positive on every value the
model constructs; fractions are compared by cross-multiplication, so the
representation never needs normalising. -/
structure PyFloat where
  num : Int
  den : Nat

def pfOfInt (n : Int) : PyFloat := ⟨n, 1⟩

def pfAdd (a b : PyFloat) : PyFloat :=
  ⟨a.num * b.den + b.num * a.den, a.den * b.den⟩

def pfSub (a b : PyFloat) : PyFloat :=
  ⟨a.num * b.den - b.num * a.den, a.den * b.den⟩

def pfMul (a b : PyFloat) : PyFloat :=
  ⟨a.num * b.num, a.den * b.den⟩

def pfDiv (a b : PyFloat) : PyFloat :=
  if b.num < 0 then ⟨-(a.num * b.den), a.den * b.num.natAbs⟩
  else ⟨a.num * b.den, a.den * b.num.natAbs⟩

def pfNeg (a : PyFloat) : PyFloat := ⟨-a.num, a.den⟩

def pfEq (a b : PyFloat) : Bool :=
  a.num * (b.den : Int) == b.num * (a.den : Int)

def pfLt (a b : PyFloat) : Bool :=
  a.num * (b.den : Int) < b.num * (a.den : Int)

def pfIsZero (a : PyFloat) : Bool := a.num == 0

/-- Scale by a power of ten (for decimal-literal parsing). -/
def pfScale10 (a : PyFloat) (e : Int) : PyFloat :=
  if e < 0 then ⟨a.num, a.den * 10 ^ e.natAbs⟩
  else ⟨a.num * (10 : Int) ^ e.toNat, a.den⟩

/-- Floor of the fraction (denominator positive). -/
def pfFloor (a : PyFloat) : Int := Int.fdiv a.num a.den

/-- Truncation toward zero, Python's `int(float)`. -/
def pfTrunc (a : PyFloat) : Int := Int.tdiv a.num a.den

/-- Whether the float's value is integral (`value == int(value)`). -/
def pfIsInt (a : PyFloat) : Bool := a.num.emod a.den == 0

-- ── Character/string helpers that reduce in the kernel ───────────────────

/-- ASCII lowercasing of one character (Python's `str.lower` restricted to
ASCII, which covers the keyword comparisons the interpreter performs). -/
def charLower (c : Char) : Char :=
  if 65 ≤ c.toNat ∧ c.toNat ≤ 90 then Char.ofNat (c.toNat + 32) else c

def strLower (s : String) : String := ⟨s.data.map charLower⟩

/-- Code-point lexicographic order, Python's `str <`. -/
def charListLt : List Char → List Char → Bool
  | [], [] => false
  | [], _ :: _ => true
  | _ :: _, [] => false
  | c :: cs, d :: ds =>
    if c.toNat < d.toNat then true
    else if d.toNat < c.toNat then false
    else charListLt cs ds

def strLtB (a b : String) : Bool := charListLt a.data b.data

def strEqB (a b : String) : Bool := a.data == b.data

/-- AST nodes, one constructor per class in `ast_nodes.py` (restricted to the
nodes the claims touch).  `NumberLiteral` carries either a Python int or a
Python float; floats are modelled as exact fractions. -/
inductive Ast where
  | numInt (n : Int)
  | numFloat (q : PyFloat)
  | strLit (v : String)
  | boolLit (b : Bool)
  | nullLit
  | listLit (elements : List Ast)
  | dictLit (pairs : List (Ast × Ast))
  | ident (name : String)
  | indexAccess (obj index : Ast)
  | dotAccess (obj : Ast) (property : String)
  | thisExpr
  | binaryOp (op : String) (left right : Ast)
  | unaryOp (op : String) (operand : Ast)
  | functionCall (name : String) (args : List Ast)
  | methodCall (obj : Ast) (method : String) (args : List Ast)
  | callExpr (callee : Ast) (args : List Ast)
  | lambdaExpr (params : List (String × Option Ast)) (body : Ast)
  | program (statements : List Ast)
  | assignment (target value : Ast)
  | showStmt (expression : Ast)
  | askStmt (prompt : Ast) (varName : String)
  | ifStmt (condition : Ast) (body : List Ast)
      (elifClauses : List (Ast × List Ast)) (elseBody : Option (List Ast))
  | whileStmt (condition : Ast) (body : List Ast)
  | funcDecl (name : String) (params : List (String × Option Ast)) (body : List Ast)
  | returnStmt (value : Option Ast)
  | breakStmt
  | continueStmt
  | tryCatch (tryBody : List Ast) (catchVar : Option String)
      (catchBody : Option (List Ast)) (finallyBody : Option (List Ast))
  | throwStmt (value : Ast)

/-- `VoltFunction`: name, parameter list with optional default expressions,
body, and the captured environment (an index into the environment store). -/
structure FuncData where
  name : String
  params : List (String × Option Ast)
  body : List Ast
  closureEnv : Nat

/-- `VoltClass`: name, optional parent class, method table, declaring
environment.  Parent links are embedded structurally. -/
inductive ClassVal where
  | mk (name : String) (parent : Option ClassVal)
      (methods : List (String × FuncData)) (env : Nat)

def ClassVal.name : ClassVal → String
  | .mk n _ _ _ => n

def ClassVal.parent : ClassVal → Option ClassVal
  | .mk _ p _ _ => p

def ClassVal.methods : ClassVal → List (String × FuncData)
  | .mk _ _ ms _ => ms

/-- Runtime values.  Lists, dictionaries and instances are references into
the heaps held by `State`, mirroring Python's sharing by reference. -/
inductive Value where
  | null
  | bool (b : Bool)
  | int (n : Int)
  | float (q : PyFloat)
  | str (s : String)
  | list (r : Nat)
  | dict (r : Nat)
  | func (f : FuncData)
  | cls (c : ClassVal)
  | inst (r : Nat)

/-- One environment frame: a name-to-value mapping plus an optional parent
index (`Environment` in the source). -/
structure Frame where
  vars : List (String × Value)
  parent : Option Nat

/-- The mutable world: the environment store, the three heaps, the lines
written to standard output, and the lines still unread on standard input. -/
structure State where
  envs : List Frame
  lists : List (List Value)
  dicts : List (List (Value × Value))
  insts : List (ClassVal × List (String × Value))
  output : List String
  stdin : List String

/-- Non-local transfers: the four signal exceptions of the interpreter, the
catchable `VoltRuntimeError` (carrying its raw message), and host-level
Python errors that the interpreter neither raises nor catches. -/
inductive Sig where
  | ret (v : Value)
  | brk
  | cont
  | throwV (v : Value)
  | err (msg : String)
  | host (msg : String)

/-- Result of one evaluation step: a value with the updated state, a signal
with the state at the point it was raised, or fuel exhaustion. -/
inductive Res where
  | ok (v : Value) (s : State)
  | sig (g : Sig) (s : State)
  | timeout

/-- Result of evaluating a list of argument expressions. -/
inductive ResVals where
  | ok (vs : List Value) (s : State)
  | sig (g : Sig) (s : State)
  | timeout

/-- Result of evaluating dictionary-literal pairs. -/
inductive ResPairs where
  | ok (d : List (Value × Value)) (s : State)
  | sig (g : Sig) (s : State)
  | timeout

-- ── Association-list helpers (Python dict with string keys) ─────────────

/-- Lookup in a string-keyed mapping (`name in self.variables` / access). -/
def lookupStr (l : List (String × Value)) (x : String) : Option Value :=
  match l with
  | [] => none
  | (k, v) :: rest => if k = x then some v else lookupStr rest x

/-- Python dict assignment for string keys: overwrite in place if the key is
present (keeping its position), otherwise append. -/
def setStr (l : List (String × Value)) (x : String) (v : Value) :
    List (String × Value) :=
  match l with
  | [] => [(x, v)]
  | (k, w) :: rest => if k = x then (k, v) :: rest else (k, w) :: setStr rest x v

-- ── Environment operations (`Environment.get/set/update`) ───────────────

/-- Walk the parent chain looking a name up, with fuel; frames allocated by
the interpreter always have parents with smaller indices, so `id + 1` fuel
suffices on reachable states. -/
def envLookupFrom (frames : List Frame) : Nat → Nat → String → Option Value
  | 0, _, _ => none
  | fuel + 1, id, x =>
    match frames.get? id with
    | none => none
    | some fr =>
      match lookupStr fr.vars x with
      | some v => some v
      | none =>
        match fr.parent with
        | none => none
        | some p => envLookupFrom frames fuel p x
termination_by structural fuel => fuel

/-- `Environment.get`, returning `none` where the source raises
"Undefined variable". -/
def envGet (s : State) (id : Nat) (x : String) : Option Value :=
  envLookupFrom s.envs (id + 1) id x

/-- Walk the parent chain and update the innermost frame already holding the
name; `none` plays the role of `update` returning `False`. -/
def envUpdateFrom (frames : List Frame) :
    Nat → Nat → String → Value → Option (List Frame)
  | 0, _, _, _ => none
  | fuel + 1, id, x, v =>
    match frames.get? id with
    | none => none
    | some fr =>
      match lookupStr fr.vars x with
      | some _ => some (frames.set id { fr with vars := setStr fr.vars x v })
      | none =>
        match fr.parent with
        | none => none
        | some p => envUpdateFrom frames fuel p x v
termination_by structural fuel => fuel

/-- `Environment.update` lifted to the state. -/
def envUpdate (s : State) (id : Nat) (x : String) (v : Value) : Option State :=
  (envUpdateFrom s.envs (id + 1) id x v).map (fun fs => { s with envs := fs })

/-- `Environment.set`: bind in the given frame itself. -/
def envSet (s : State) (id : Nat) (x : String) (v : Value) : State :=
  match s.envs.get? id with
  | none => s
  | some fr =>
    { s with envs := s.envs.set id { fr with vars := setStr fr.vars x v } }

/-- Allocate a fresh frame whose parent is `parent`; returns its index. -/
def envAlloc (s : State) (parent : Option Nat) (vars : List (String × Value)) :
    Nat × State :=
  (s.envs.length, { s with envs := s.envs ++ [{ vars := vars, parent := parent }] })

-- ── Heap operations ─────────────────────────────────────────────────────

/-- Allocate a fresh list cell; returns its reference. -/
def listAlloc (s : State) (xs : List Value) : Nat × State :=
  (s.lists.length, { s with lists := s.lists ++ [xs] })

/-- Overwrite the list cell `r` in place. -/
def listSet (s : State) (r : Nat) (xs : List Value) : State :=
  { s with lists := s.lists.set r xs }

/-- Allocate a fresh dictionary cell; returns its reference. -/
def dictAlloc (s : State) (d : List (Value × Value)) : Nat × State :=
  (s.dicts.length, { s with dicts := s.dicts ++ [d] })

/-- Overwrite the dictionary cell `r` in place. -/
def dictSet (s : State) (r : Nat) (d : List (Value × Value)) : State :=
  { s with dicts := s.dicts.set r d }

/-- Overwrite the properties of instance cell `r` in place. -/
def instSetProps (s : State) (r : Nat) (props : List (String × Value)) : State :=
  match s.insts.get? r with
  | none => s
  | some (k, _) => { s with insts := s.insts.set r (k, props) }

-- ── Numeric views (Python treats bool as an int subclass) ───────────────

/-- A numeric value as an exact fraction (`bool` counts as 0/1). -/
def numToPf : Value → Option PyFloat
  | .bool b => some (pfOfInt (if b then 1 else 0))
  | .int n => some (pfOfInt n)
  | .float q => some q
  | _ => none

/-- Values Python adds as ints (int and bool). -/
def intLikeVal : Value → Option Int
  | .bool b => some (if b then 1 else 0)
  | .int n => some n
  | _ => none

-- ── Python number parsing (`int(str)` / `float(str)`) ───────────────────

def isSpaceChar (c : Char) : Bool :=
  c = ' ' || c = '\t' || c = '\n' || c = '\r' || c = '\x0b' || c = '\x0c'

def dropSpaces : List Char → List Char
  | [] => []
  | c :: rest => if isSpaceChar c then dropSpaces rest else c :: rest

/-- Consume a run of decimal digits, allowing single underscores between
digits (Python numeric-literal grammar).  Returns the accumulated value, the
number of digits consumed, and the unconsumed remainder. -/
def digitsLoop : List Char → Nat → Nat → Nat × Nat × List Char
  | [], acc, cnt => (acc, cnt, [])
  | c :: rest, acc, cnt =>
    if c.isDigit then
      digitsLoop rest (acc * 10 + (c.toNat - 48)) (cnt + 1)
    else if c = '_' then
      match rest with
      | c2 :: rest2 =>
        if c2.isDigit then digitsLoop rest2 (acc * 10 + (c2.toNat - 48)) (cnt + 1)
        else (acc, cnt, c :: rest)
      | [] => (acc, cnt, c :: rest)
    else (acc, cnt, c :: rest)

/-- Leading sign. -/
def takeSign : List Char → Bool × List Char
  | '+' :: rest => (false, rest)
  | '-' :: rest => (true, rest)
  | cs => (false, cs)

/-- Python `int(str)`: optional surrounding whitespace, optional sign, a
nonempty digit run (underscores allowed between digits). -/
def pyParseInt (s : String) : Option Int :=
  let cs := dropSpaces s.data
  let (neg, cs2) := takeSign cs
  match cs2 with
  | [] => none
  | c :: _ =>
    if c.isDigit then
      let (n, _, rest) := digitsLoop cs2 0 0
      if dropSpaces rest = [] then
        some (if neg then -(n : Int) else (n : Int))
      else none
    else none

/-- Python `float(str)` on the finite decimal grammar: optional surrounding
whitespace, optional sign, a mantissa with at least one digit and an optional
decimal point, and an optional exponent.  The special spellings inf,
infinity and nan are outside the model (fractions cannot carry them). -/
def pyParseFloat (s : String) : Option PyFloat :=
  let cs := dropSpaces s.data
  let (neg, cs2) := takeSign cs
  let (ip, ipCnt, afterIp) := digitsLoop cs2 0 0
  let (mant, digCnt, afterMant) :=
    match afterIp with
    | '.' :: rest =>
      let (fp, fpCnt, afterFp) := digitsLoop rest 0 0
      ((⟨(ip : Int) * (10 : Int) ^ fpCnt + (fp : Int), 10 ^ fpCnt⟩ : PyFloat),
       ipCnt + fpCnt, afterFp)
    | _ => ((pfOfInt ip : PyFloat), ipCnt, afterIp)
  if digCnt = 0 then none
  else
    let withExp : Option (PyFloat × List Char) :=
      match afterMant with
      | 'e' :: rest | 'E' :: rest =>
        let (eneg, rest2) := takeSign rest
        match rest2 with
        | [] => none
        | c :: _ =>
          if c.isDigit then
            let (e, _, rest3) := digitsLoop rest2 0 0
            some (pfScale10 mant (if eneg then -(e : Int) else (e : Int)), rest3)
          else none
      | rest => some (mant, rest)
    match withExp with
    | none => none
    | some (q, rest) =>
      if dropSpaces rest = [] then some (if neg then pfNeg q else q) else none

-- ── The `ask` statement's input auto-coercion ───────────────────────────

/-- The shared fallback of the auto-coercion: case-insensitive true/false,
otherwise the raw line. -/
def boolOrStr (line : String) : Value :=
  if strEqB (strLower line) "true" then .bool true
  else if strEqB (strLower line) "false" then .bool false
  else .str line

/-- `Interpreter._exec_AskStatement`'s auto-coercion, as the code performs
it: lines containing a dot go to `float`, all others to `int`, and a failed
conversion falls back to the true/false comparison and then the raw line. -/
def askCoerce (line : String) : Value :=
  if line.data.contains '.' then
    match pyParseFloat line with
    | some q => .float q
    | none => boolOrStr line
  else
    match pyParseInt line with
    | some n => .int n
    | none => boolOrStr line

/-- The coercion order exactly as claim C2 words it: integer parse first,
then floating parse, then booleans, else the raw line. -/
def askCoerceClaim (line : String) : Value :=
  match pyParseInt line with
  | some n => .int n
  | none =>
    match pyParseFloat line with
    | some q => .float q
    | none => boolOrStr line

/-- The amended coercion order: as the claim words it, except that the
floating step additionally requires the line to contain a decimal point. -/
def askCoerceAmended (line : String) : Value :=
  match pyParseInt line with
  | some n => .int n
  | none =>
    if line.data.contains '.' then
      match pyParseFloat line with
      | some q => Value.float q
      | none => boolOrStr line
    else boolOrStr line

-- ── Truthiness (`Interpreter._is_truthy`) ───────────────────────────────

def isTruthy (s : State) (v : Value) : Bool :=
  match v with
  | .null => false
  | .bool b => b
  | .int n => n != 0
  | .float q => !(pfIsZero q)
  | .str t => t.data.length > 0
  | .list r => ((s.lists.get? r).getD []).length > 0
  | .dict r => ((s.dicts.get? r).getD []).length > 0
  | _ => true

-- ── Python equality and ordering on values ──────────────────────────────

/-- Equality for hashable values, as Python dictionary keys use it: numeric
values compare across int/float/bool, strings structurally, instances by
identity.  Function and class objects compare by host identity, which the
value model does not track; they are modelled as never equal. -/
def pyEqPrim (a b : Value) : Bool :=
  match numToPf a, numToPf b with
  | some x, some y => pfEq x y
  | _, _ =>
    match a, b with
    | .null, .null => true
    | .str x, .str y => strEqB x y
    | .inst r₁, .inst r₂ => r₁ == r₂
    | .list r₁, .list r₂ => r₁ == r₂
    | .dict r₁, .dict r₂ => r₁ == r₂
    | _, _ => false

/-- Keys Python would reject as unhashable. -/
def isUnhashable : Value → Bool
  | .list _ => true
  | .dict _ => true
  | _ => false

/-- Python `d[k] = v`: overwrite in place when an equal key is present
(keeping the original key object and its position), else append. -/
def dictInsertVal (d : List (Value × Value)) (k v : Value) : List (Value × Value) :=
  match d with
  | [] => [(k, v)]
  | (k0, v0) :: rest =>
    if pyEqPrim k0 k then (k0, v) :: rest
    else (k0, v0) :: dictInsertVal rest k v

/-- First value stored under a key equal to `k`. -/
def dictLookupVal (d : List (Value × Value)) (k : Value) : Option Value :=
  match d with
  | [] => none
  | (k0, v0) :: rest => if pyEqPrim k0 k then some v0 else dictLookupVal rest k

mutual
/-- Python `==` on values: structural for numbers, strings, booleans, null,
lists and dictionaries (through the heaps, hence fueled: `none` means the
fuel ran out), identity for instances; function and class objects are
modelled as never equal (host identity untracked). -/
def pyEqV : Nat → State → Value → Value → Option Bool
  | 0, _, _, _ => none
  | fuel + 1, s, a, b =>
    match numToPf a, numToPf b with
    | some x, some y => some (pfEq x y)
    | _, _ =>
      match a, b with
      | .null, .null => some true
      | .str x, .str y => some (strEqB x y)
      | .list r₁, .list r₂ =>
        pyEqList fuel s ((s.lists.get? r₁).getD []) ((s.lists.get? r₂).getD [])
      | .dict r₁, .dict r₂ =>
        let d₁ := (s.dicts.get? r₁).getD []
        let d₂ := (s.dicts.get? r₂).getD []
        if d₁.length = d₂.length then pyEqDict fuel s d₁ d₂ else some false
      | .inst r₁, .inst r₂ => some (r₁ == r₂)
      | _, _ => some false
termination_by structural fuel => fuel

def pyEqList : Nat → State → List Value → List Value → Option Bool
  | 0, _, _, _ => none
  | _ + 1, _, [], [] => some true
  | _ + 1, _, [], _ :: _ => some false
  | _ + 1, _, _ :: _, [] => some false
  | fuel + 1, s, x :: xs, y :: ys =>
    match pyEqV fuel s x y with
    | none => none
    | some false => some false
    | some true => pyEqList fuel s xs ys
termination_by structural fuel => fuel

def pyEqDict : Nat → State → List (Value × Value) → List (Value × Value) → Option Bool
  | 0, _, _, _ => none
  | _ + 1, _, [], _ => some true
  | fuel + 1, s, (k, v) :: rest, d₂ =>
    match dictLookupVal d₂ k with
    | none => some false
    | some w =>
      match pyEqV fuel s v w with
      | none => none
      | some false => some false
      | some true => pyEqDict fuel s rest d₂
termination_by structural fuel => fuel
end

/-- Outcome of a Python rich comparison. -/
inductive CmpR where
  | lt
  | eq
  | gt
  | typeErr
  | fuelOut

mutual
/-- Python `<`-style comparison: numbers across int/float/bool, strings
lexicographically, lists elementwise; anything else raises TypeError. -/
def pyCmpV : Nat → State → Value → Value → CmpR
  | 0, _, _, _ => .fuelOut
  | fuel + 1, s, a, b =>
    match numToPf a, numToPf b with
    | some x, some y => if pfLt x y then .lt else if pfEq x y then .eq else .gt
    | _, _ =>
      match a, b with
      | .str x, .str y =>
        if strLtB x y then .lt else if strEqB x y then .eq else .gt
      | .list r₁, .list r₂ =>
        pyCmpList fuel s ((s.lists.get? r₁).getD []) ((s.lists.get? r₂).getD [])
      | _, _ => .typeErr
termination_by structural fuel => fuel

def pyCmpList : Nat → State → List Value → List Value → CmpR
  | 0, _, _, _ => .fuelOut
  | _ + 1, _, [], [] => .eq
  | _ + 1, _, [], _ :: _ => .lt
  | _ + 1, _, _ :: _, [] => .gt
  | fuel + 1, s, x :: xs, y :: ys =>
    match pyEqV fuel s x y with
    | none => .fuelOut
    | some true => pyCmpList fuel s xs ys
    | some false => pyCmpV fuel s x y
termination_by structural fuel => fuel
end

-- ── Arithmetic helpers ──────────────────────────────────────────────────

/-- Numeric `+` as Python performs it: int result when both operands are
int-like (int or bool), float result when either is a float. -/
def numAdd (l r : Value) : Option Value :=
  match intLikeVal l, intLikeVal r with
  | some a, some b => some (.int (a + b))
  | _, _ =>
    match numToPf l, numToPf r with
    | some a, some b => some (.float (pfAdd a b))
    | _, _ => none

def numSub (l r : Value) : Option Value :=
  match intLikeVal l, intLikeVal r with
  | some a, some b => some (.int (a - b))
  | _, _ =>
    match numToPf l, numToPf r with
    | some a, some b => some (.float (pfSub a b))
    | _, _ => none

def numMul (l r : Value) : Option Value :=
  match intLikeVal l, intLikeVal r with
  | some a, some b => some (.int (a * b))
  | _, _ =>
    match numToPf l, numToPf r with
    | some a, some b => some (.float (pfMul a b))
    | _, _ => none

/-- Python true division, always a float. -/
def numDiv (l r : Value) : Option Value :=
  match numToPf l, numToPf r with
  | some a, some b => some (.float (pfDiv a b))
  | _, _ => none

/-- Python `%` (floor modulus: the result takes the divisor's sign). -/
def numMod (l r : Value) : Option Value :=
  match intLikeVal l, intLikeVal r with
  | some a, some b => some (.int (Int.fmod a b))
  | _, _ =>
    match numToPf l, numToPf r with
    | some a, some b =>
      some (.float (pfSub a (pfMul b (pfOfInt (pfFloor (pfDiv a b))))))
    | _, _ => none

/-- Python `int(x)` applied to a runtime value. -/
def pyToInt : Value → Option Int
  | .bool b => some (if b then 1 else 0)
  | .int n => some n
  | .float q => some (pfTrunc q)
  | .str t => pyParseInt t
  | _ => none

-- ── Rendering helpers for the canonical stringifier ─────────────────────

/-- Pad a digit string with leading zeros to width `k`. -/
def padZeros (k : Nat) (t : String) : String :=
  String.mk (List.replicate (k - t.length) '0') ++ t

/-- Decimal rendering of a non-integral float value.  Python prints the
shortest round-tripping decimal of the binary float; the fraction model
prints the exact decimal expansion instead (binary floats always have
one), which agrees on short literals. -/
def floatRepr (q : PyFloat) : String :=
  match (List.range 64).find?
      (fun k => (q.num * (10 : Int) ^ k).emod q.den == 0) with
  | some k =>
    let m := Int.ediv (q.num * (10 : Int) ^ k) q.den
    let sign := if m < 0 then "-" else ""
    let a := m.natAbs
    sign ++ toString (a / 10 ^ k) ++ "." ++ padZeros k (toString (a % 10 ^ k))
  | none => toString q.num ++ "/" ++ toString q.den

def funcRepr (f : FuncData) : String :=
  "<func " ++ f.name ++ "(" ++ String.intercalate ", " (f.params.map Prod.fst) ++ ")>"

def clsRepr (c : ClassVal) : String :=
  "<class " ++ c.name ++ ">"

def instRepr (c : ClassVal) : String :=
  "<" ++ c.name ++ " instance>"

-- ── Class method lookup (`VoltClass.find_method`) ───────────────────────

def lookupFn (ms : List (String × FuncData)) (n : String) : Option FuncData :=
  match ms with
  | [] => none
  | (k, f) :: rest => if k = n then some f else lookupFn rest n

/-- `VoltClass.find_method`: own table first, then the parent chain. -/
def findMethodF (c : ClassVal) (n : String) : Option FuncData :=
  match c with
  | .mk _ p ms _ =>
    match lookupFn ms n with
    | some f => some f
    | none =>
      match p with
      | none => none
      | some pc => findMethodF pc n

/-- The linear chain of classes from a class up through its parents. -/
def classChain (c : ClassVal) : List ClassVal :=
  match c with
  | .mk nm p ms e =>
    .mk nm p ms e :: (match p with
                      | none => []
                      | some pc => classChain pc)

/-- `VoltInstance.get`: instance-owned properties first, then the class
chain; `none` where the source raises "has no property or method". -/
def instGetProp (klass : ClassVal) (props : List (String × Value)) (n : String) :
    Option Value :=
  match lookupStr props n with
  | some v => some v
  | none => (findMethodF klass n).map .func

-- ── List indexing / slicing helpers ─────────────────────────────────────

/-- Python slice-bound normalisation for a sequence of length `len`. -/
def sliceIdx (len : Nat) (i : Int) : Nat :=
  if i < 0 then ((len : Int) + i).toNat else min i.toNat len

/-- Python `xs[a:b]`. -/
def pySliceL (xs : List Value) (a b : Int) : List Value :=
  let lo := sliceIdx xs.length a
  let hi := sliceIdx xs.length b
  (xs.drop lo).take (hi - lo)

/-- Python `xs[a:]`. -/
def pySliceFromL (xs : List Value) (a : Int) : List Value :=
  xs.drop (sliceIdx xs.length a)

/-- Effective index of an in-range Python index (negatives count from the
end); callers bounds-check first, as the source does. -/
def effIdx (len : Nat) (i : Int) : Nat :=
  if i < 0 then ((len : Int) + i).toNat else i.toNat

/-- Python `list.insert`: the position is clamped to the ends. -/
def insertAt (xs : List Value) (pos : Nat) (v : Value) : List Value :=
  xs.take pos ++ v :: xs.drop pos

/-- Remove the element at an in-range effective index. -/
def removeAt (xs : List Value) (pos : Nat) : List Value :=
  xs.take pos ++ xs.drop (pos + 1)

/-- `lst[i] = val` for every `i` in a run of `k` indices starting at
`start`, all in range (the `fill` loop). -/
def fillRangeAux (xs : List Value) (val : Value) (start : Int) : Nat → List Value
  | 0 => xs
  | k + 1 => fillRangeAux (xs.set (effIdx xs.length start) val) val (start + 1) k

-- ── Fueled list searches (Python `==` on elements) ──────────────────────

def findIdxEqAux (fuel : Nat) (s : State) (v : Value) :
    List Value → Nat → Option (Option Nat)
  | [], _ => some none
  | x :: xs, i =>
    match pyEqV fuel s x v with
    | none => none
    | some true => some (some i)
    | some false => findIdxEqAux fuel s v xs (i + 1)

def lastIdxEqAux (fuel : Nat) (s : State) (v : Value) :
    List Value → Nat → Option Nat → Option (Option Nat)
  | [], _, best => some best
  | x :: xs, i, best =>
    match pyEqV fuel s x v with
    | none => none
    | some true => lastIdxEqAux fuel s v xs (i + 1) (some i)
    | some false => lastIdxEqAux fuel s v xs (i + 1) best

def containsEq (fuel : Nat) (s : State) (xs : List Value) (v : Value) :
    Option Bool :=
  (findIdxEqAux fuel s v xs 0).map Option.isSome

def countEqAux (fuel : Nat) (s : State) (v : Value) :
    List Value → Nat → Option Nat
  | [], acc => some acc
  | x :: xs, acc =>
    match pyEqV fuel s x v with
    | none => none
    | some true => countEqAux fuel s v xs (acc + 1)
    | some false => countEqAux fuel s v xs acc

/-- `unique`: keep first occurrences, in order. -/
def uniqueAux (fuel : Nat) (s : State) :
    List Value → List Value → Option (List Value)
  | [], seen => some seen
  | x :: xs, seen =>
    match containsEq fuel s seen x with
    | none => none
    | some true => uniqueAux fuel s xs seen
    | some false => uniqueAux fuel s xs (seen ++ [x])

/-- One level of flattening (`flat`). -/
def flatVals (s : State) : List Value → List Value
  | [] => []
  | x :: rest =>
    match x with
    | .list r => ((s.lists.get? r).getD []) ++ flatVals s rest
    | v => v :: flatVals s rest

-- ── Aggregates: sum / min / max / sort ──────────────────────────────────

/-- Python `sum`: fold numeric addition from the int 0. -/
def sumVals : List Value → Value → Option Value
  | [], acc => some acc
  | x :: xs, acc =>
    match numAdd acc x with
    | none => none
    | some acc2 => sumVals xs acc2

inductive ValR where
  | ok (v : Value)
  | typeErr
  | fuelOut

def minFold (fuel : Nat) (s : State) : List Value → Value → ValR
  | [], m => .ok m
  | x :: xs, m =>
    match pyCmpV fuel s x m with
    | .lt => minFold fuel s xs x
    | .eq => minFold fuel s xs m
    | .gt => minFold fuel s xs m
    | .typeErr => .typeErr
    | .fuelOut => .fuelOut

def maxFold (fuel : Nat) (s : State) : List Value → Value → ValR
  | [], m => .ok m
  | x :: xs, m =>
    match pyCmpV fuel s x m with
    | .gt => maxFold fuel s xs x
    | .lt => maxFold fuel s xs m
    | .eq => maxFold fuel s xs m
    | .typeErr => .typeErr
    | .fuelOut => .fuelOut

inductive SortR where
  | ok (xs : List Value)
  | typeErr
  | fuelOut

/-- Stable insertion into a sorted prefix: equal elements keep their
original relative order, as Python's stable sort guarantees. -/
def insSorted (fuel : Nat) (s : State) (x : Value) : List Value → SortR
  | [] => .ok [x]
  | y :: ys =>
    match pyCmpV fuel s x y with
    | .lt => .ok (x :: y :: ys)
    | .fuelOut => .fuelOut
    | .typeErr => .typeErr
    | _ =>
      match insSorted fuel s x ys with
      | .ok zs => .ok (y :: zs)
      | e => e

def insSortAux (fuel : Nat) (s : State) : List Value → List Value → SortR
  | [], acc => .ok acc
  | x :: xs, acc =>
    match insSorted fuel s x acc with
    | .ok acc2 => insSortAux fuel s xs acc2
    | e => e

/-- `sorted(lst)`. -/
def pySorted (fuel : Nat) (s : State) (xs : List Value) : SortR :=
  insSortAux fuel s xs []

-- ── Miscellaneous ───────────────────────────────────────────────────────

/-- Allocate a fresh two-element list for each pair (`zip`, `enumerate`). -/
def allocPairs (s : State) : List (Value × Value) → List Value × State
  | [] => ([], s)
  | (a, b) :: rest =>
    let (r, s₁) := listAlloc s [a, b]
    let (vs, s₂) := allocPairs s₁ rest
    (.list r :: vs, s₂)

/-- Python `lst * k` / `s * k` repetition count. -/
def pyRepeat {α} (xs : List α) (k : Int) : List α :=
  List.flatten (List.replicate k.toNat xs)

/-- The names in `Interpreter._setup_builtins`, dispatched before any
user binding in `_exec_FunctionCall`. -/
def builtinNames : List String :=
  ["len", "str", "int", "float", "type", "range", "abs", "min", "max",
   "round", "upper", "lower", "split", "join", "contains", "reverse",
   "sort", "keys", "values", "print", "input", "number", "string", "bool",
   "isinstance", "char", "ord"]

-- ── Lexer: string-literal scanning (`Lexer.read_string`) ────────────────

/-- The `escape_map` of `Lexer.read_string`. -/
def escapeMap (c : Char) : Option Char :=
  if c = 'n' then some '\n'
  else if c = 't' then some '\t'
  else if c = Char.ofNat 92 then some (Char.ofNat 92)
  else if c = Char.ofNat 34 then some (Char.ofNat 34)
  else if c = Char.ofNat 39 then some (Char.ofNat 39)
  else if c = Char.ofNat 123 then some (Char.ofNat 123)
  else if c = Char.ofNat 125 then some (Char.ofNat 125)
  else if c = '0' then some (Char.ofNat 0)
  else none

/-- The scanning loop of `Lexer.read_string` for a plain (non-interpolated)
string literal, after the opening quote: produce the string's value, or
`none` on an unterminated literal or a raw newline.  A backslash consumes
the next character: mapped characters are replaced, any other character is
kept together with the backslash. -/
def readStringBody (quote : Char) : List Char → Option (List Char)
  | [] => none
  | c :: rest =>
    if c = quote then some []
    else if c = Char.ofNat 92 then
      match rest with
      | [] => none
      | e :: rest2 =>
        match escapeMap e with
        | some r => (readStringBody quote rest2).map (fun tl => r :: tl)
        | none => (readStringBody quote rest2).map (fun tl => Char.ofNat 92 :: e :: tl)
    else if c = '\n' then none
    else (readStringBody quote rest).map (fun tl => c :: tl)

-- ── Remaining small pure helpers for the evaluator ──────────────────────

/-- `Interpreter._type_name` (modules omitted). -/
def typeName (s : State) : Value → String
  | .null => "null"
  | .bool _ => "boolean"
  | .int _ => "int"
  | .float _ => "float"
  | .str _ => "string"
  | .list _ => "list"
  | .dict _ => "dict"
  | .func _ => "function"
  | .cls _ => "class"
  | .inst r =>
    match s.insts.get? r with
    | some (k, _) => k.name
    | none => "unknown"

/-- Approximation of Python `repr` on hashable key values, used only inside
the "Key ... not found" message text. -/
def primRepr : Value → String
  | .str t => "'" ++ t ++ "'"
  | .int n => toString n
  | .bool b => if b then "True" else "False"
  | .null => "None"
  | .float q =>
    if pfIsInt q then toString (pfTrunc q) ++ ".0" else floatRepr q
  | _ => "<value>"

/-- Python `str * k`. -/
def strRepeat (t : String) (k : Int) : String :=
  String.mk (pyRepeat t.data k)

/-- Python `list.insert` position clamping. -/
def insClampIdx (len : Nat) (i : Int) : Nat :=
  if i < 0 then ((len : Int) + i).toNat else min i.toNat len

/-- Merge for dict `+`: copy the left, then write every right entry over it
(`result = dict(left); result.update(right)`). -/
def dictMergeAssoc (d₁ d₂ : List (Value × Value)) : List (Value × Value) :=
  d₂.foldl (fun acc kv => dictInsertVal acc kv.1 kv.2) d₁

/-- Result of parameter binding: an updated state or a signal. -/
inductive ResSt where
  | ok (s : State)
  | sig (g : Sig) (s : State)
  | timeout

/-- Result of stringification. -/
inductive ResStr where
  | ok (t : String) (s : State)
  | sig (g : Sig) (s : State)
  | timeout

/-- Result of stringifying a sequence. -/
inductive ResStrs where
  | ok (ts : List String) (s : State)
  | sig (g : Sig) (s : State)
  | timeout

/-- `_exec_BinaryOp`, every operator other than `+` (none of these can
run user code). -/
def binOpRest : Nat → String → Value → Value → State → Res
  | 0, _, _, _, _ => .timeout
  | fuel + 1, op, l, r, s =>
    if op = "-" then
      match numSub l r with
      | some v => .ok v s
      | none => .sig (.host "TypeError: -") s
    else if op = "*" then
      match l, r with
      | .str t, .int _ | .str t, .float _ | .str t, .bool _ =>
        match pyToInt r with
        | some k => .ok (.str (strRepeat t k)) s
        | none => .sig (.host "TypeError: *") s
      | .int _, .str t | .float _, .str t | .bool _, .str t =>
        match pyToInt l with
        | some k => .ok (.str (strRepeat t k)) s
        | none => .sig (.host "TypeError: *") s
      | .list r₁, _ =>
        match intLikeVal r with
        | some k =>
          let xs := (s.lists.get? r₁).getD []
          let (r3, s₁) := listAlloc s (pyRepeat xs k)
          .ok (.list r3) s₁
        | none => .sig (.host "TypeError: *") s
      | _, .list r₂ =>
        match intLikeVal l with
        | some k =>
          let ys := (s.lists.get? r₂).getD []
          let (r3, s₁) := listAlloc s (pyRepeat ys k)
          .ok (.list r3) s₁
        | none => .sig (.host "TypeError: *") s
      | _, _ =>
        match numMul l r with
        | some v => .ok v s
        | none => .sig (.host "TypeError: *") s
    else if op = "/" then
      if (match numToPf r with | some x => pfIsZero x | none => false) then
        .sig (.err "Division by zero") s
      else
        match numDiv l r with
        | some v => .ok v s
        | none => .sig (.host "TypeError: /") s
    else if op = "%" then
      if (match numToPf r with | some x => pfIsZero x | none => false) then
        .sig (.err "Modulo by zero") s
      else
        match numMod l r with
        | some v => .ok v s
        | none => .sig (.host "TypeError: %") s
    else if op = "==" then
      match pyEqV fuel s l r with
      | some b => .ok (.bool b) s
      | none => .timeout
    else if op = "!=" then
      match pyEqV fuel s l r with
      | some b => .ok (.bool (!b)) s
      | none => .timeout
    else if op = "<" then
      match pyCmpV fuel s l r with
      | .lt => .ok (.bool true) s
      | .eq => .ok (.bool false) s
      | .gt => .ok (.bool false) s
      | .typeErr => .sig (.host "TypeError: <") s
      | .fuelOut => .timeout
    else if op = ">" then
      match pyCmpV fuel s l r with
      | .gt => .ok (.bool true) s
      | .eq => .ok (.bool false) s
      | .lt => .ok (.bool false) s
      | .typeErr => .sig (.host "TypeError: >") s
      | .fuelOut => .timeout
    else if op = "<=" then
      match pyCmpV fuel s l r with
      | .lt => .ok (.bool true) s
      | .eq => .ok (.bool true) s
      | .gt => .ok (.bool false) s
      | .typeErr => .sig (.host "TypeError: <=") s
      | .fuelOut => .timeout
    else if op = ">=" then
      match pyCmpV fuel s l r with
      | .gt => .ok (.bool true) s
      | .eq => .ok (.bool true) s
      | .lt => .ok (.bool false) s
      | .typeErr => .sig (.host "TypeError: >=") s
      | .fuelOut => .timeout
    else .sig (.err ("Unknown operator: " ++ op)) s

/-- `Interpreter._call_list_method`: every method that cannot call back
into user code (everything except `join` and the higher-order methods). -/
def listMethodBasic : Nat → Nat → List Value → String → List Value → State → Res
  | 0, _, _, _, _, _ => .timeout
  | fuel + 1, r, xs, m, vs, s =>
      if m = "push" ∨ m = "append" then
        match vs with
        | [] => .sig (.err (m ++ "() needs 1 argument")) s
        | a :: _ => .ok (.list r) (listSet s r (xs ++ [a]))
      else if m = "pop" then
        if xs.length = 0 then .sig (.err "Cannot pop from empty list") s
        else
          match vs with
          | [] =>
            match xs.getLast? with
            | some v => .ok v (listSet s r (removeAt xs (xs.length - 1)))
            | none => .sig (.host "unreachable") s
          | a :: _ =>
            match pyToInt a with
            | none => .sig (.host "TypeError: pop index") s
            | some i =>
              if i < -(xs.length : Int) ∨ i ≥ (xs.length : Int) then
                .sig (.host "IndexError: pop index out of range") s
              else
                match xs.get? (effIdx xs.length i) with
                | some v => .ok v (listSet s r (removeAt xs (effIdx xs.length i)))
                | none => .sig (.host "unreachable") s
      else if m = "shift" then
        match xs with
        | [] => .sig (.err "Cannot shift from empty list") s
        | v :: rest => .ok v (listSet s r rest)
      else if m = "unshift" then
        match vs with
        | [] => .sig (.err "unshift() needs 1 argument") s
        | a :: _ => .ok (.list r) (listSet s r (a :: xs))
      else if m = "insert" then
        match vs with
        | a :: b :: _ =>
          match pyToInt a with
          | none => .sig (.host "TypeError: insert index") s
          | some i => .ok (.list r) (listSet s r (insertAt xs (insClampIdx xs.length i) b))
        | _ => .sig (.err "insert() needs 2 arguments") s
      else if m = "remove" then
        match vs with
        | [] => .sig (.err "remove() needs 1 argument") s
        | a :: _ =>
          match findIdxEqAux fuel s a xs 0 with
          | none => .timeout
          | some none => .sig (.host "ValueError: list.remove(x): x not in list") s
          | some (some i) => .ok (.list r) (listSet s r (removeAt xs i))
      else if m = "length" then .ok (.int xs.length) s
      else if m = "indexOf" then
        match vs with
        | [] => .sig (.err "indexOf() needs 1 argument") s
        | a :: _ =>
          match findIdxEqAux fuel s a xs 0 with
          | none => .timeout
          | some none => .ok (.int (-1)) s
          | some (some i) => .ok (.int i) s
      else if m = "lastIndexOf" then
        match vs with
        | [] => .sig (.err "lastIndexOf() needs 1 argument") s
        | a :: _ =>
          match lastIdxEqAux fuel s a xs 0 none with
          | none => .timeout
          | some none => .ok (.int (-1)) s
          | some (some i) => .ok (.int i) s
      else if m = "includes" ∨ m = "contains" then
        match vs with
        | [] => .sig (.err (m ++ "() needs 1 argument")) s
        | a :: _ =>
          match containsEq fuel s xs a with
          | none => .timeout
          | some b => .ok (.bool b) s
      else if m = "slice" then
        match vs with
        | a :: b :: _ =>
          match pyToInt a, pyToInt b with
          | some i, some j =>
            let (r3, s₁) := listAlloc s (pySliceL xs i j)
            .ok (.list r3) s₁
          | _, _ => .sig (.host "TypeError: slice index") s
        | [a] =>
          match pyToInt a with
          | some i =>
            let (r3, s₁) := listAlloc s (pySliceFromL xs i)
            .ok (.list r3) s₁
          | none => .sig (.host "TypeError: slice index") s
        | [] =>
          let (r3, s₁) := listAlloc s xs
          .ok (.list r3) s₁
      else if m = "sort" then
        match pySorted fuel s xs with
        | .ok ys =>
          let (r3, s₁) := listAlloc s ys
          .ok (.list r3) s₁
        | .typeErr => .sig (.host "TypeError: unorderable") s
        | .fuelOut => .timeout
      else if m = "reverse" then
        let (r3, s₁) := listAlloc s xs.reverse
        .ok (.list r3) s₁
      else if m = "flat" then
        let (r3, s₁) := listAlloc s (flatVals s xs)
        .ok (.list r3) s₁
      else if m = "fill" then
        match vs with
        | [] => .sig (.err "fill() needs 1 argument") s
        | val :: rest =>
          let startR : Option Int :=
            match rest with
            | [] => some 0
            | a :: _ => pyToInt a
          let stopR : Option Int :=
            match rest with
            | _ :: b :: _ => pyToInt b
            | _ => some (xs.length : Int)
          match startR, stopR with
          | some start, some endv =>
            let stop := min endv (xs.length : Int)
            if stop ≤ start then .ok (.list r) s
            else if start < -(xs.length : Int) then
              .sig (.host "IndexError: fill") s
            else
              .ok (.list r) (listSet s r (fillRangeAux xs val start (stop - start).toNat))
          | _, _ => .sig (.host "TypeError: fill index") s
      else if m = "clear" then .ok (.list r) (listSet s r [])
      else if m = "copy" then
        let (r3, s₁) := listAlloc s xs
        .ok (.list r3) s₁
      else if m = "count" then
        match vs with
        | [] => .sig (.err "count() needs 1 argument") s
        | a :: _ =>
          match countEqAux fuel s a xs 0 with
          | none => .timeout
          | some n => .ok (.int n) s
      else if m = "isEmpty" then .ok (.bool (xs.length == 0)) s
      else if m = "first" then
        match xs with
        | [] => .sig (.err "Cannot get first of empty list") s
        | v :: _ => .ok v s
      else if m = "last" then
        match xs.getLast? with
        | none => .sig (.err "Cannot get last of empty list") s
        | some v => .ok v s
      else if m = "unique" then
        match uniqueAux fuel s xs [] with
        | none => .timeout
        | some ys =>
          let (r3, s₁) := listAlloc s ys
          .ok (.list r3) s₁
      else if m = "sum" then
        match sumVals xs (.int 0) with
        | some v => .ok v s
        | none => .sig (.host "TypeError: sum") s
      else if m = "min" then
        match xs with
        | [] => .sig (.host "ValueError: min of empty list") s
        | v :: rest =>
          match minFold fuel s rest v with
          | .ok w => .ok w s
          | .typeErr => .sig (.host "TypeError: min") s
          | .fuelOut => .timeout
      else if m = "max" then
        match xs with
        | [] => .sig (.host "ValueError: max of empty list") s
        | v :: rest =>
          match maxFold fuel s rest v with
          | .ok w => .ok w s
          | .typeErr => .sig (.host "TypeError: max") s
          | .fuelOut => .timeout
      else if m = "zip" then
        match vs with
        | (.list r₂) :: _ =>
          let ys := (s.lists.get? r₂).getD []
          let (pairs, s₁) := allocPairs s (xs.zip ys)
          let (r3, s₂) := listAlloc s₁ pairs
          .ok (.list r3) s₂
        | _ => .sig (.err "zip() needs a list argument") s
      else if m = "enumerate" then
        let (pairs, s₁) := allocPairs s (xs.enum.map (fun p => (.int p.1, p.2)))
        let (r3, s₂) := listAlloc s₁ pairs
        .ok (.list r3) s₂
      else .sig (.err ("List has no method '" ++ m ++ "'")) s

-- ── The evaluator (`Interpreter.execute` and its helpers) ───────────────

mutual

/-- `Interpreter.execute`: one dispatcher per AST variant. -/
def evalAst : Nat → Ast → Nat → State → Res
  | 0, _, _, _ => .timeout
  | fuel + 1, node, env, s =>
    match node with
    | .program stmts => execBlock fuel stmts env s
    | .numInt n => .ok (.int n) s
    | .numFloat q => .ok (.float q) s
    | .strLit v => .ok (.str v) s
    | .boolLit b => .ok (.bool b) s
    | .nullLit => .ok .null s
    | .listLit es =>
      match evalArgs fuel es env s with
      | .ok vs s₁ =>
        let (r, s₂) := listAlloc s₁ vs
        .ok (.list r) s₂
      | .sig g s₁ => .sig g s₁
      | .timeout => .timeout
    | .dictLit ps =>
      match evalPairs fuel ps env s [] with
      | .ok d s₁ =>
        let (r, s₂) := dictAlloc s₁ d
        .ok (.dict r) s₂
      | .sig g s₁ => .sig g s₁
      | .timeout => .timeout
    | .ident x =>
      match envGet s env x with
      | some v => .ok v s
      | none => .sig (.err ("Undefined variable: '" ++ x ++ "'")) s
    | .thisExpr =>
      match envGet s env "this" with
      | some v => .ok v s
      | none => .sig (.err "Undefined variable: 'this'") s
    | .indexAccess objN idxN =>
      match evalAst fuel objN env s with
      | .ok obj s₁ =>
        match evalAst fuel idxN env s₁ with
        | .ok idx s₂ =>
          match obj with
          | .list r =>
            let xs := (s₂.lists.get? r).getD []
            match pyToInt idx with
            | none => .sig (.host "TypeError: list index") s₂
            | some i =>
              if i < -(xs.length : Int) ∨ i ≥ (xs.length : Int) then
                .sig (.err ("Index " ++ toString i ++ " out of range (length "
                  ++ toString xs.length ++ ")")) s₂
              else
                match xs.get? (effIdx xs.length i) with
                | some v => .ok v s₂
                | none => .sig (.host "unreachable") s₂
          | .str t =>
            match pyToInt idx with
            | none => .sig (.host "TypeError: string index") s₂
            | some i =>
              if i < -(t.data.length : Int) ∨ i ≥ (t.data.length : Int) then
                .sig (.err ("Index " ++ toString i ++ " out of range (length "
                  ++ toString t.data.length ++ ")")) s₂
              else
                match t.data.get? (effIdx t.data.length i) with
                | some c => .ok (.str (String.mk [c])) s₂
                | none => .sig (.host "unreachable") s₂
          | .dict r =>
            if isUnhashable idx then .sig (.host "TypeError: unhashable key") s₂
            else
              let d := (s₂.dicts.get? r).getD []
              match dictLookupVal d idx with
              | some v => .ok v s₂
              | none =>
                .sig (.err ("Key " ++ primRepr idx ++ " not found in dict")) s₂
          | _ => .sig (.err ("Cannot index " ++ typeName s₂ obj)) s₂
        | .sig g s₂ => .sig g s₂
        | .timeout => .timeout
      | .sig g s₁ => .sig g s₁
      | .timeout => .timeout
    | .dotAccess objN prop =>
      match evalAst fuel objN env s with
      | .ok obj s₁ =>
        match obj with
        | .inst r =>
          match s₁.insts.get? r with
          | none => .sig (.host "dangling instance") s₁
          | some (k, props) =>
            match instGetProp k props prop with
            | some v => .ok v s₁
            | none =>
              .sig (.err ("'" ++ k.name ++ "' has no property or method '"
                ++ prop ++ "'")) s₁
        | .cls c =>
          match findMethodF c prop with
          | some f => .ok (.func f) s₁
          | none =>
            .sig (.err ("Class '" ++ c.name ++ "' has no method '" ++ prop ++ "'")) s₁
        | .dict r =>
          let d := (s₁.dicts.get? r).getD []
          if prop = "size" then .ok (.int d.length) s₁
          else
            match dictLookupVal d (.str prop) with
            | some v => .ok v s₁
            | none => .sig (.err ("Key '" ++ prop ++ "' not found in dict")) s₁
        | .str t =>
          if prop = "length" then .ok (.int t.data.length) s₁
          else
            .sig (.err ("String has no property '" ++ prop ++ "'. Use ."
              ++ prop ++ "() for methods")) s₁
        | .list r =>
          if prop = "length" then
            .ok (.int ((s₁.lists.get? r).getD []).length) s₁
          else
            .sig (.err ("List has no property '" ++ prop ++ "'. Use ."
              ++ prop ++ "() for methods")) s₁
        | _ =>
          .sig (.err ("Cannot access property '" ++ prop ++ "' on "
            ++ typeName s₁ obj)) s₁
      | .sig g s₁ => .sig g s₁
      | .timeout => .timeout
    | .binaryOp op l r =>
      if op = "and" then
        match evalAst fuel l env s with
        | .ok lv s₁ => if isTruthy s₁ lv then evalAst fuel r env s₁ else .ok lv s₁
        | .sig g s₁ => .sig g s₁
        | .timeout => .timeout
      else if op = "or" then
        match evalAst fuel l env s with
        | .ok lv s₁ => if isTruthy s₁ lv then .ok lv s₁ else evalAst fuel r env s₁
        | .sig g s₁ => .sig g s₁
        | .timeout => .timeout
      else
        match evalAst fuel l env s with
        | .ok lv s₁ =>
          match evalAst fuel r env s₁ with
          | .ok rv s₂ =>
            if op = "+" then plusApply fuel lv rv s₂
            else binOpRest fuel op lv rv s₂
          | .sig g s₂ => .sig g s₂
          | .timeout => .timeout
        | .sig g s₁ => .sig g s₁
        | .timeout => .timeout
    | .unaryOp op e =>
      match evalAst fuel e env s with
      | .ok v s₁ =>
        if op = "-" then
          match intLikeVal v with
          | some n => .ok (.int (-n)) s₁
          | none =>
            match v with
            | .float q => .ok (.float (pfNeg q)) s₁
            | _ => .sig (.host "TypeError: unary minus") s₁
        else if op = "not" then .ok (.bool (!(isTruthy s₁ v))) s₁
        else .sig (.err ("Unknown unary operator: " ++ op)) s₁
      | .sig g s₁ => .sig g s₁
      | .timeout => .timeout
    | .lambdaExpr params body =>
      .ok (.func ⟨"<lambda>", params, [Ast.returnStmt (some body)], env⟩) s
    | .functionCall name args =>
      match evalArgs fuel args env s with
      | .ok vs s₁ =>
        if builtinNames.contains name then
          .sig (.host ("builtin '" ++ name ++ "' outside model")) s₁
        else
          match envGet s₁ env name with
          | none => .sig (.err ("Undefined variable: '" ++ name ++ "'")) s₁
          | some (.cls _) => .sig (.host "class instantiation outside model") s₁
          | some (.func f) =>
            let (fid, s₂) := envAlloc s₁ (some f.closureEnv) []
            match bindParams fuel f.name f.params vs fid env s₂ with
            | .ok s₃ =>
              match execBlock fuel f.body fid s₃ with
              | .ok _ s₄ => .ok .null s₄
              | .sig (.ret v) s₄ => .ok v s₄
              | .sig g s₄ => .sig g s₄
              | .timeout => .timeout
            | .sig g s₃ => .sig g s₃
            | .timeout => .timeout
          | some _ => .sig (.err ("'" ++ name ++ "' is not a function")) s₁
      | .sig g s₁ => .sig g s₁
      | .timeout => .timeout
    | .callExpr callee args =>
      match evalAst fuel callee env s with
      | .ok cv s₁ =>
        match evalArgs fuel args env s₁ with
        | .ok vs s₂ =>
          match cv with
          | .func _ => callVoltFunction fuel cv vs env s₂
          | .cls _ => .sig (.host "class instantiation outside model") s₂
          | _ => .sig (.err "Expression is not callable") s₂
        | .sig g s₂ => .sig g s₂
        | .timeout => .timeout
      | .sig g s₁ => .sig g s₁
      | .timeout => .timeout
    | .methodCall objN m args =>
      match evalAst fuel objN env s with
      | .ok obj s₁ =>
        match evalArgs fuel args env s₁ with
        | .ok vs s₂ =>
          match obj with
          | .inst r => callInstanceMethod fuel r m vs env s₂
          | .str _ => .sig (.host "string methods outside model") s₂
          | .list r =>
            match s₂.lists.get? r with
            | none => .sig (.host "dangling list") s₂
            | some xs => callListMethod fuel r xs m vs env s₂
          | .dict _ => .sig (.host "dict methods outside model") s₂
          | .int _ => callNumberMethod fuel obj m vs s₂
          | .float _ => callNumberMethod fuel obj m vs s₂
          | .bool _ => callNumberMethod fuel obj m vs s₂
          | _ =>
            .sig (.err ("Cannot call method '" ++ m ++ "' on "
              ++ typeName s₂ obj)) s₂
        | .sig g s₂ => .sig g s₂
        | .timeout => .timeout
      | .sig g s₁ => .sig g s₁
      | .timeout => .timeout
    | .assignment target valueN =>
      match evalAst fuel valueN env s with
      | .ok v s₁ =>
        match target with
        | .ident x =>
          match envUpdate s₁ env x v with
          | some s₂ => .ok v s₂
          | none => .ok v (envSet s₁ env x v)
        | .dotAccess objN prop =>
          match evalAst fuel objN env s₁ with
          | .ok obj s₂ =>
            match obj with
            | .inst r =>
              match s₂.insts.get? r with
              | none => .sig (.host "dangling instance") s₂
              | some (_, props) => .ok v (instSetProps s₂ r (setStr props prop v))
            | .dict r =>
              let d := (s₂.dicts.get? r).getD []
              .ok v (dictSet s₂ r (dictInsertVal d (.str prop) v))
            | _ => .sig (.err ("Cannot set property on " ++ typeName s₂ obj)) s₂
          | .sig g s₂ => .sig g s₂
          | .timeout => .timeout
        | .indexAccess objN idxN =>
          match evalAst fuel objN env s₁ with
          | .ok obj s₂ =>
            match evalAst fuel idxN env s₂ with
            | .ok idx s₃ =>
              match obj with
              | .list r =>
                let xs := (s₃.lists.get? r).getD []
                match pyToInt idx with
                | none => .sig (.host "TypeError: list index") s₃
                | some i =>
                  if i < -(xs.length : Int) ∨ i ≥ (xs.length : Int) then
                    .sig (.err ("Index " ++ toString i ++ " out of range")) s₃
                  else .ok v (listSet s₃ r (xs.set (effIdx xs.length i) v))
              | .dict r =>
                if isUnhashable idx then
                  .sig (.host "TypeError: unhashable key") s₃
                else
                  let d := (s₃.dicts.get? r).getD []
                  .ok v (dictSet s₃ r (dictInsertVal d idx v))
              | _ =>
                .sig (.err ("Cannot index-assign on " ++ typeName s₃ obj)) s₃
            | .sig g s₃ => .sig g s₃
            | .timeout => .timeout
          | .sig g s₂ => .sig g s₂
          | .timeout => .timeout
        | .thisExpr =>
          .sig (.err "Cannot assign directly to 'this'. Use 'set this.property = value'") s₁
        | _ => .sig (.err "Invalid assignment target") s₁
      | .sig g s₁ => .sig g s₁
      | .timeout => .timeout
    | .showStmt e =>
      match evalAst fuel e env s with
      | .ok v s₁ =>
        match toStringR fuel v s₁ with
        | .ok t s₂ => .ok .null { s₂ with output := s₂.output ++ [t] }
        | .sig g s₂ => .sig g s₂
        | .timeout => .timeout
      | .sig g s₁ => .sig g s₁
      | .timeout => .timeout
    | .askStmt promptN var =>
      match evalAst fuel promptN env s with
      | .ok pv s₁ =>
        match toStringR fuel pv s₁ with
        | .ok pt s₂ =>
          match s₂.stdin with
          | [] => .sig (.host "EOFError") { s₂ with output := s₂.output ++ [pt] }
          | line :: rest =>
            let s₃ := { s₂ with output := s₂.output ++ [pt], stdin := rest }
            let v := askCoerce line
            .ok v (envSet s₃ env var v)
        | .sig g s₂ => .sig g s₂
        | .timeout => .timeout
      | .sig g s₁ => .sig g s₁
      | .timeout => .timeout
    | .ifStmt cond body elifs elseB =>
      match evalAst fuel cond env s with
      | .ok cv s₁ =>
        if isTruthy s₁ cv then execBlock fuel body env s₁
        else elifChain fuel elifs elseB env s₁
      | .sig g s₁ => .sig g s₁
      | .timeout => .timeout
    | .whileStmt cond body => whileLoop fuel cond body env s .null
    | .funcDecl name params body =>
      let f : FuncData := ⟨name, params, body, env⟩
      .ok (.func f) (envSet s env name (.func f))
    | .returnStmt v? =>
      match v? with
      | none => .sig (.ret .null) s
      | some e =>
        match evalAst fuel e env s with
        | .ok v s₁ => .sig (.ret v) s₁
        | .sig g s₁ => .sig g s₁
        | .timeout => .timeout
    | .breakStmt => .sig .brk s
    | .continueStmt => .sig .cont s
    | .tryCatch tb cv cb fin =>
      let afterCatch : Res :=
        match execBlock fuel tb env s with
        | .ok v s₁ => .ok v s₁
        | .sig (.throwV tv) s₁ =>
          match cv, cb with
          | some x, some cbody =>
            if !(strEqB x "") && !cbody.isEmpty then
              let (cid, s₂) := envAlloc s₁ (some env) [(x, tv)]
              execBlock fuel cbody cid s₂
            else .ok .null s₁
          | _, _ => .ok .null s₁
        | .sig (.err m) s₁ =>
          match cv, cb with
          | some x, some cbody =>
            if !(strEqB x "") && !cbody.isEmpty then
              let (cid, s₂) := envAlloc s₁ (some env) [(x, .str ("Runtime Error: " ++ m))]
              execBlock fuel cbody cid s₂
            else .ok .null s₁
          | _, _ => .ok .null s₁
        | .sig g s₁ => .sig g s₁
        | .timeout => .timeout
      runFinally fuel fin env afterCatch
    | .throwStmt e =>
      match evalAst fuel e env s with
      | .ok v s₁ => .sig (.throwV v) s₁
      | .sig g s₁ => .sig g s₁
      | .timeout => .timeout
termination_by structural fuel => fuel

/-- `Interpreter._exec_block`: run statements in order, returning the last
result; signals propagate. -/
def execBlock : Nat → List Ast → Nat → State → Res
  | 0, _, _, _ => .timeout
  | _ + 1, [], _, s => .ok .null s
  | fuel + 1, st :: rest, env, s =>
    match evalAst fuel st env s with
    | .ok v s₁ =>
      match rest with
      | [] => .ok v s₁
      | _ :: _ => execBlock fuel rest env s₁
    | .sig g s₁ => .sig g s₁
    | .timeout => .timeout
termination_by structural fuel => fuel

/-- Evaluate expressions left to right (argument lists, list literals). -/
def evalArgs : Nat → List Ast → Nat → State → ResVals
  | 0, _, _, _ => .timeout
  | _ + 1, [], _, s => .ok [] s
  | fuel + 1, a :: rest, env, s =>
    match evalAst fuel a env s with
    | .ok v s₁ =>
      match evalArgs fuel rest env s₁ with
      | .ok vs s₂ => .ok (v :: vs) s₂
      | .sig g s₂ => .sig g s₂
      | .timeout => .timeout
    | .sig g s₁ => .sig g s₁
    | .timeout => .timeout
termination_by structural fuel => fuel

/-- Evaluate dictionary-literal pairs in order, inserting as Python does. -/
def evalPairs : Nat → List (Ast × Ast) → Nat → State → List (Value × Value) → ResPairs
  | 0, _, _, _, _ => .timeout
  | _ + 1, [], _, s, acc => .ok acc s
  | fuel + 1, (kN, vN) :: rest, env, s, acc =>
    match evalAst fuel kN env s with
    | .ok k s₁ =>
      match evalAst fuel vN env s₁ with
      | .ok v s₂ =>
        if isUnhashable k then .sig (.host "TypeError: unhashable key") s₂
        else evalPairs fuel rest env s₂ (dictInsertVal acc k v)
      | .sig g s₂ => .sig g s₂
      | .timeout => .timeout
    | .sig g s₁ => .sig g s₁
    | .timeout => .timeout
termination_by structural fuel => fuel

/-- `Interpreter._bind_params`: positional arguments first; a missing
argument is filled by evaluating its default expression in the CALLER's
environment; a missing argument without a default raises. -/
def bindParams : Nat → String → List (String × Option Ast) → List Value → Nat → Nat → State → ResSt
  | 0, _, _, _, _, _, _ => .timeout
  | _ + 1, _, [], _, _, _, s => .ok s
  | fuel + 1, fname, (p, d?) :: ps, args, funcEnv, callerEnv, s =>
    match args with
    | a :: rest => bindParams fuel fname ps rest funcEnv callerEnv (envSet s funcEnv p a)
    | [] =>
      match d? with
      | some dN =>
        match evalAst fuel dN callerEnv s with
        | .ok dv s₁ => bindParams fuel fname ps [] funcEnv callerEnv (envSet s₁ funcEnv p dv)
        | .sig g s₁ => .sig g s₁
        | .timeout => .timeout
      | none =>
        .sig (.err ("Missing argument '" ++ p ++ "' in call to " ++ fname ++ "()")) s
termination_by structural fuel => fuel

/-- `Interpreter._call_volt_function`. -/
def callVoltFunction : Nat → Value → List Value → Nat → State → Res
  | 0, _, _, _, _ => .timeout
  | fuel + 1, fnv, args, env, s =>
    match fnv with
    | .func f =>
      let (fid, s₁) := envAlloc s (some f.closureEnv) []
      match bindParams fuel f.name f.params args fid env s₁ with
      | .ok s₂ =>
        match execBlock fuel f.body fid s₂ with
        | .ok _ s₃ => .ok .null s₃
        | .sig (.ret v) s₃ => .ok v s₃
        | .sig g s₃ => .sig g s₃
        | .timeout => .timeout
      | .sig g s₂ => .sig g s₂
      | .timeout => .timeout
    | _ => .sig (.err "Not a callable function") s
termination_by structural fuel => fuel

/-- `Interpreter._call_instance_method`: instance-owned properties first
(callable if they hold a function), then the class chain with `this` and
`__class__` bound. -/
def callInstanceMethod : Nat → Nat → String → List Value → Nat → State → Res
  | 0, _, _, _, _, _ => .timeout
  | fuel + 1, r, mname, args, env, s =>
    match s.insts.get? r with
    | none => .sig (.host "dangling instance") s
    | some (k, props) =>
      match lookupStr props mname with
      | some v =>
        match v with
        | .func _ => callVoltFunction fuel v args env s
        | _ => .sig (.err ("'" ++ mname ++ "' is not a method")) s
      | none =>
        match findMethodF k mname with
        | none => .sig (.err ("'" ++ k.name ++ "' has no method '" ++ mname ++ "'")) s
        | some mf =>
          let (mid, s₁) := envAlloc s (some mf.closureEnv)
            [("this", .inst r), ("__class__", .cls k)]
          match bindParams fuel mf.name mf.params args mid env s₁ with
          | .ok s₂ =>
            match execBlock fuel mf.body mid s₂ with
            | .ok _ s₃ => .ok .null s₃
            | .sig (.ret v) s₃ => .ok v s₃
            | .sig g s₃ => .sig g s₃
            | .timeout => .timeout
          | .sig g s₂ => .sig g s₂
          | .timeout => .timeout
termination_by structural fuel => fuel

/-- The `+` case of `_exec_BinaryOp` (string concatenation may run a user
`toString` method through the canonical stringifier). -/
def plusApply : Nat → Value → Value → State → Res
  | 0, _, _, _ => .timeout
  | fuel + 1, l, r, s =>
    match l, r with
    | .str _, _ | _, .str _ =>
      match toStringR fuel l s with
      | .ok a s₁ =>
        match toStringR fuel r s₁ with
        | .ok b s₂ => .ok (.str (a ++ b)) s₂
        | .sig g s₂ => .sig g s₂
        | .timeout => .timeout
      | .sig g s₁ => .sig g s₁
      | .timeout => .timeout
    | .list r₁, .list r₂ =>
      let xs := (s.lists.get? r₁).getD []
      let ys := (s.lists.get? r₂).getD []
      let (r3, s₁) := listAlloc s (xs ++ ys)
      .ok (.list r3) s₁
    | .dict r₁, .dict r₂ =>
      let d₁ := (s.dicts.get? r₁).getD []
      let d₂ := (s.dicts.get? r₂).getD []
      let (r3, s₁) := dictAlloc s (dictMergeAssoc d₁ d₂)
      .ok (.dict r3) s₁
    | _, _ =>
      match numAdd l r with
      | some v => .ok v s
      | none => .sig (.host "TypeError: +") s
termination_by structural fuel => fuel

/-- `elif` clause chain of `_exec_IfStatement`. -/
def elifChain : Nat → List (Ast × List Ast) → Option (List Ast) → Nat → State → Res
  | 0, _, _, _, _ => .timeout
  | _ + 1, [], none, _, s => .ok .null s
  | fuel + 1, [], some b, env, s => execBlock fuel b env s
  | fuel + 1, (c, b) :: rest, elseB, env, s =>
    match evalAst fuel c env s with
    | .ok cv s₁ =>
      if isTruthy s₁ cv then execBlock fuel b env s₁
      else elifChain fuel rest elseB env s₁
    | .sig g s₁ => .sig g s₁
    | .timeout => .timeout
termination_by structural fuel => fuel

/-- `_exec_WhileStatement`'s loop; `resAcc` is the result of the last
completed iteration (break returns it, continue keeps it). -/
def whileLoop : Nat → Ast → List Ast → Nat → State → Value → Res
  | 0, _, _, _, _, _ => .timeout
  | fuel + 1, cond, body, env, s, resAcc =>
    match evalAst fuel cond env s with
    | .ok cv s₁ =>
      if isTruthy s₁ cv then
        match execBlock fuel body env s₁ with
        | .ok v s₂ => whileLoop fuel cond body env s₂ v
        | .sig .brk s₂ => .ok resAcc s₂
        | .sig .cont s₂ => whileLoop fuel cond body env s₂ resAcc
        | .sig g s₂ => .sig g s₂
        | .timeout => .timeout
      else .ok resAcc s₁
    | .sig g s₁ => .sig g s₁
    | .timeout => .timeout
termination_by structural fuel => fuel

/-- The Python `finally` composition: the finally block runs exactly once
on every path, and a signal raised inside it replaces the pending one. -/
def runFinally : Nat → Option (List Ast) → Nat → Res → Res
  | 0, _, _, _ => .timeout
  | _ + 1, none, _, r => r
  | fuel + 1, some fb, env, r =>
    match r with
    | .ok v s₁ =>
      match execBlock fuel fb env s₁ with
      | .ok _ s₂ => .ok v s₂
      | .sig g s₂ => .sig g s₂
      | .timeout => .timeout
    | .sig g s₁ =>
      match execBlock fuel fb env s₁ with
      | .ok _ s₂ => .sig g s₂
      | .sig g2 s₂ => .sig g2 s₂
      | .timeout => .timeout
    | .timeout => .timeout
termination_by structural fuel => fuel

/-- `Interpreter._to_string`, the canonical stringifier (it can run user
code: a `toString` method on an instance's class chain). -/
def toStringR : Nat → Value → State → ResStr
  | 0, _, _ => .timeout
  | fuel + 1, v, s =>
    match v with
    | .null => .ok "null" s
    | .bool b => .ok (if b then "true" else "false") s
    | .float q => .ok (if pfIsInt q then toString (pfTrunc q) else floatRepr q) s
    | .int n => .ok (toString n) s
    | .str t => .ok t s
    | .list r =>
      match toStringList fuel ((s.lists.get? r).getD []) s with
      | .ok ts s₁ => .ok ("[" ++ String.intercalate ", " ts ++ "]") s₁
      | .sig g s₁ => .sig g s₁
      | .timeout => .timeout
    | .dict r =>
      match toStringPairs fuel ((s.dicts.get? r).getD []) s with
      | .ok ts s₁ => .ok ("\x7b" ++ String.intercalate ", " ts ++ "\x7d") s₁
      | .sig g s₁ => .sig g s₁
      | .timeout => .timeout
    | .func f => .ok (funcRepr f) s
    | .cls c => .ok (clsRepr c) s
    | .inst r =>
      match s.insts.get? r with
      | none => .sig (.host "dangling instance") s
      | some (k, _) =>
        match findMethodF k "toString" with
        | none => .ok (instRepr k) s
        | some mf =>
          let (mid, s₁) := envAlloc s (some mf.closureEnv)
            [("this", .inst r), ("__class__", .cls k)]
          match execBlock fuel mf.body mid s₁ with
          | .ok _ s₂ => .ok (instRepr k) s₂
          | .sig (.ret rv) s₂ => toStringR fuel rv s₂
          | .sig g s₂ => .sig g s₂
          | .timeout => .timeout
termination_by structural fuel => fuel

def toStringList : Nat → List Value → State → ResStrs
  | 0, _, _ => .timeout
  | _ + 1, [], s => .ok [] s
  | fuel + 1, v :: vs, s =>
    match toStringR fuel v s with
    | .ok t s₁ =>
      match toStringList fuel vs s₁ with
      | .ok ts s₂ => .ok (t :: ts) s₂
      | .sig g s₂ => .sig g s₂
      | .timeout => .timeout
    | .sig g s₁ => .sig g s₁
    | .timeout => .timeout
termination_by structural fuel => fuel

def toStringPairs : Nat → List (Value × Value) → State → ResStrs
  | 0, _, _ => .timeout
  | _ + 1, [], s => .ok [] s
  | fuel + 1, (k, v) :: rest, s =>
    match toStringR fuel k s with
    | .ok tk s₁ =>
      match toStringR fuel v s₁ with
      | .ok tv s₂ =>
        match toStringPairs fuel rest s₂ with
        | .ok ts s₃ => .ok ((tk ++ ": " ++ tv) :: ts) s₃
        | .sig g s₃ => .sig g s₃
        | .timeout => .timeout
      | .sig g s₂ => .sig g s₂
      | .timeout => .timeout
    | .sig g s₁ => .sig g s₁
    | .timeout => .timeout
termination_by structural fuel => fuel

/-- `Interpreter._call_number_method`. -/
def callNumberMethod : Nat → Value → String → List Value → State → Res
  | 0, _, _, _, _ => .timeout
  | fuel + 1, nv, m, args, s =>
    if m = "toStr" ∨ m = "toString" then
      match toStringR fuel nv s with
      | .ok t s₁ => .ok (.str t) s₁
      | .sig g s₁ => .sig g s₁
      | .timeout => .timeout
    else if m = "toInt" then
      match pyToInt nv with
      | some i => .ok (.int i) s
      | none => .sig (.host "unreachable") s
    else if m = "toFloat" then
      match numToPf nv with
      | some x => .ok (.float x) s
      | none => .sig (.host "unreachable") s
    else if m = "abs" then
      match nv with
      | .int n => .ok (.int (if n < 0 then -n else n)) s
      | .bool b => .ok (.int (if b then 1 else 0)) s
      | .float q => .ok (.float ⟨if q.num < 0 then -q.num else q.num, q.den⟩) s
      | _ => .sig (.host "unreachable") s
    else if m = "isEven" then
      match pyToInt nv with
      | some i => .ok (.bool (i.emod 2 == 0)) s
      | none => .sig (.host "unreachable") s
    else if m = "isOdd" then
      match pyToInt nv with
      | some i => .ok (.bool (i.emod 2 != 0)) s
      | none => .sig (.host "unreachable") s
    else if m = "isPositive" then
      match numToPf nv with
      | some x => .ok (.bool (pfLt ⟨0, 1⟩ x)) s
      | none => .sig (.host "unreachable") s
    else if m = "isNegative" then
      match numToPf nv with
      | some x => .ok (.bool (pfLt x ⟨0, 1⟩)) s
      | none => .sig (.host "unreachable") s
    else if m = "isZero" then
      match numToPf nv with
      | some x => .ok (.bool (pfEq x ⟨0, 1⟩)) s
      | none => .sig (.host "unreachable") s
    else if m = "clamp" then
      match args with
      | lo :: hi :: _ =>
        match pyCmpV fuel s hi nv with
        | .fuelOut => .timeout
        | .typeErr => .sig (.host "TypeError: clamp") s
        | c1 =>
          let inner := match c1 with
            | .lt => hi
            | _ => nv
          match pyCmpV fuel s inner lo with
          | .fuelOut => .timeout
          | .typeErr => .sig (.host "TypeError: clamp") s
          | .lt => .ok lo s
          | _ => .ok inner s
      | _ => .sig (.err "clamp() needs 2 arguments (min, max)") s
    else .sig (.err ("Number has no method '" ++ m ++ "'")) s
termination_by structural fuel => fuel

/-- `Interpreter._call_list_method`, operating on the heap cell `r` the
receiver references. -/
def callListMethod : Nat → Nat → List Value → String → List Value → Nat → State → Res
  | 0, _, _, _, _, _, _ => .timeout
  | fuel + 1, r, xs, m, vs, env, s =>
      if m = "join" then
        match vs with
        | [] =>
          match toStringList fuel xs s with
          | .ok ts s₁ => .ok (.str (String.intercalate "," ts)) s₁
          | .sig g s₁ => .sig g s₁
          | .timeout => .timeout
        | a :: _ =>
          match toStringR fuel a s with
          | .ok sep s₁ =>
            match toStringList fuel xs s₁ with
            | .ok ts s₂ => .ok (.str (String.intercalate sep ts)) s₂
            | .sig g s₂ => .sig g s₂
            | .timeout => .timeout
          | .sig g s₁ => .sig g s₁
          | .timeout => .timeout
      else if m = "map" then
        match vs with
        | [] => .sig (.err "map() needs a function argument") s
        | fn :: _ => hofMapLoop fuel fn r 0 env s []
      else if m = "filter" then
        match vs with
        | [] => .sig (.err "filter() needs a function argument") s
        | fn :: _ => hofFilterLoop fuel fn r 0 env s []
      else if m = "find" then
        match vs with
        | [] => .sig (.err "find() needs a function argument") s
        | fn :: _ => hofFindLoop fuel fn r 0 env s
      else if m = "findIndex" then
        match vs with
        | [] => .sig (.err "findIndex() needs a function argument") s
        | fn :: _ => hofFindIdxLoop fuel fn r 0 env s
      else if m = "forEach" then
        match vs with
        | [] => .sig (.err "forEach() needs a function argument") s
        | fn :: _ => hofForEachLoop fuel fn r 0 env s
      else if m = "every" then
        match vs with
        | [] => .sig (.err "every() needs a function argument") s
        | fn :: _ => hofEveryLoop fuel fn r 0 env s
      else if m = "some" then
        match vs with
        | [] => .sig (.err "some() needs a function argument") s
        | fn :: _ => hofSomeLoop fuel fn r 0 env s
      else if m = "reduce" then
        match vs with
        | [] => .sig (.err "reduce() needs a function argument") s
        | fn :: rest =>
          match rest with
          | init :: _ => hofReduceLoop fuel fn r 0 init env s
          | [] =>
            match xs with
            | [] => .sig (.host "IndexError: reduce of empty list") s
            | v :: _ => hofReduceLoop fuel fn r 1 v env s
      else listMethodBasic (fuel + 1) r xs m vs s
termination_by structural fuel => fuel

/-- `map` loop: Python's `for item in lst` iterates the live list by index,
so mutations by the callback are observed. -/
def hofMapLoop : Nat → Value → Nat → Nat → Nat → State → List Value → Res
  | 0, _, _, _, _, _, _ => .timeout
  | fuel + 1, fn, r, i, env, s, acc =>
    match ((s.lists.get? r).getD []).get? i with
    | none =>
      let (r3, s₁) := listAlloc s acc
      .ok (.list r3) s₁
    | some item =>
      match callVoltFunction fuel fn [item] env s with
      | .ok v s₁ => hofMapLoop fuel fn r (i + 1) env s₁ (acc ++ [v])
      | .sig g s₁ => .sig g s₁
      | .timeout => .timeout
termination_by structural fuel => fuel

def hofFilterLoop : Nat → Value → Nat → Nat → Nat → State → List Value → Res
  | 0, _, _, _, _, _, _ => .timeout
  | fuel + 1, fn, r, i, env, s, acc =>
    match ((s.lists.get? r).getD []).get? i with
    | none =>
      let (r3, s₁) := listAlloc s acc
      .ok (.list r3) s₁
    | some item =>
      match callVoltFunction fuel fn [item] env s with
      | .ok v s₁ =>
        hofFilterLoop fuel fn r (i + 1) env s₁
          (if isTruthy s₁ v then acc ++ [item] else acc)
      | .sig g s₁ => .sig g s₁
      | .timeout => .timeout
termination_by structural fuel => fuel

def hofFindLoop : Nat → Value → Nat → Nat → Nat → State → Res
  | 0, _, _, _, _, _ => .timeout
  | fuel + 1, fn, r, i, env, s =>
    match ((s.lists.get? r).getD []).get? i with
    | none => .ok .null s
    | some item =>
      match callVoltFunction fuel fn [item] env s with
      | .ok v s₁ =>
        if isTruthy s₁ v then .ok item s₁
        else hofFindLoop fuel fn r (i + 1) env s₁
      | .sig g s₁ => .sig g s₁
      | .timeout => .timeout
termination_by structural fuel => fuel

def hofFindIdxLoop : Nat → Value → Nat → Nat → Nat → State → Res
  | 0, _, _, _, _, _ => .timeout
  | fuel + 1, fn, r, i, env, s =>
    match ((s.lists.get? r).getD []).get? i with
    | none => .ok (.int (-1)) s
    | some item =>
      match callVoltFunction fuel fn [item] env s with
      | .ok v s₁ =>
        if isTruthy s₁ v then .ok (.int i) s₁
        else hofFindIdxLoop fuel fn r (i + 1) env s₁
      | .sig g s₁ => .sig g s₁
      | .timeout => .timeout
termination_by structural fuel => fuel

def hofForEachLoop : Nat → Value → Nat → Nat → Nat → State → Res
  | 0, _, _, _, _, _ => .timeout
  | fuel + 1, fn, r, i, env, s =>
    match ((s.lists.get? r).getD []).get? i with
    | none => .ok .null s
    | some item =>
      match callVoltFunction fuel fn [item] env s with
      | .ok _ s₁ => hofForEachLoop fuel fn r (i + 1) env s₁
      | .sig g s₁ => .sig g s₁
      | .timeout => .timeout
termination_by structural fuel => fuel

def hofEveryLoop : Nat → Value → Nat → Nat → Nat → State → Res
  | 0, _, _, _, _, _ => .timeout
  | fuel + 1, fn, r, i, env, s =>
    match ((s.lists.get? r).getD []).get? i with
    | none => .ok (.bool true) s
    | some item =>
      match callVoltFunction fuel fn [item] env s with
      | .ok v s₁ =>
        if isTruthy s₁ v then hofEveryLoop fuel fn r (i + 1) env s₁
        else .ok (.bool false) s₁
      | .sig g s₁ => .sig g s₁
      | .timeout => .timeout
termination_by structural fuel => fuel

def hofSomeLoop : Nat → Value → Nat → Nat → Nat → State → Res
  | 0, _, _, _, _, _ => .timeout
  | fuel + 1, fn, r, i, env, s =>
    match ((s.lists.get? r).getD []).get? i with
    | none => .ok (.bool false) s
    | some item =>
      match callVoltFunction fuel fn [item] env s with
      | .ok v s₁ =>
        if isTruthy s₁ v then .ok (.bool true) s₁
        else hofSomeLoop fuel fn r (i + 1) env s₁
      | .sig g s₁ => .sig g s₁
      | .timeout => .timeout
termination_by structural fuel => fuel

def hofReduceLoop : Nat → Value → Nat → Nat → Value → Nat → State → Res
  | 0, _, _, _, _, _, _ => .timeout
  | fuel + 1, fn, r, i, acc, env, s =>
    match ((s.lists.get? r).getD []).get? i with
    | none => .ok acc s
    | some item =>
      match callVoltFunction fuel fn [acc, item] env s with
      | .ok v s₁ => hofReduceLoop fuel fn r (i + 1) v env s₁
      | .sig g s₁ => .sig g s₁
      | .timeout => .timeout
termination_by structural fuel => fuel

end

/-- `_exec_BinaryOp` applied to two already-evaluated operands: `+`
dispatches to `plusApply`, every other operator to `binOpRest`. -/
def binOpApply : Nat → String → Value → Value → State → Res
  | 0, _, _, _, _ => .timeout
  | fuel + 1, op, l, r, s =>
    if op = "+" then plusApply (fuel + 1) l r s
    else binOpRest (fuel + 1) op l r s

-- ── Supporting definitions for the claim statements ─────────────────────

/-- A fresh interpreter state: one empty global frame, empty heaps, no
output, no input. -/
def st0 : State := ⟨[⟨[], none⟩], [], [], [], [], []⟩

/-- The frame the innermost binding of a name lives in, walking the parent
chain exactly as `Environment.update` does. -/
def resolveFrom (frames : List Frame) : Nat → Nat → String → Option Nat
  | 0, _, _ => none
  | fuel + 1, id, x =>
    match frames.get? id with
    | none => none
    | some fr =>
      match lookupStr fr.vars x with
      | some _ => some id
      | none =>
        match fr.parent with
        | none => none
        | some p => resolveFrom frames fuel p x
termination_by structural fuel => fuel

def resolveFrame (s : State) (id : Nat) (x : String) : Option Nat :=
  resolveFrom s.envs (id + 1) id x

/-- `ReachesNS s x d f`: frame `f` is on the parent chain of frame `d`, and
no frame strictly between them (including `d` itself when `d ≠ f`) binds
`x`.  Parents decrease along interpreter-allocated chains, which the
`p < d` side condition records. -/
inductive ReachesNS (s : State) (x : String) : Nat → Nat → Prop
  | refl (d : Nat) : ReachesNS s x d d
  | step (d p f : Nat) (fr : Frame) :
      s.envs.get? d = some fr →
      lookupStr fr.vars x = none →
      fr.parent = some p →
      p < d →
      ReachesNS s x p f →
      ReachesNS s x d f

/-- Keys on which cross-multiplying equality is well behaved: float keys
must carry a positive denominator (every float the model builds does). -/
def WfKeyP : Value → Prop
  | .float q => 0 < q.den
  | _ => True

/-- A well-formed dictionary association: pairwise distinct keys (as every
dictionary the interpreter builds has) with well-behaved key values. -/
def GoodDict (d : List (Value × Value)) : Prop :=
  d.Pairwise (fun a b => pyEqPrim a.1 b.1 = false) ∧ ∀ kv ∈ d, WfKeyP kv.1

/-- The claim-side characterisation of `+` on dictionaries: the right
operand's binding wins, otherwise the left's. -/
def mergeSpec (d₁ d₂ : List (Value × Value)) (k : Value) : Option Value :=
  match dictLookupVal d₂ k with
  | some w => some w
  | none => dictLookupVal d₁ k

/-- Caller/closure environments for the default-argument claim: frame 0 is
the closure scope of `f` and `g` and binds `y` to `v₂`; frame 1 is the
caller scope, binds `y` to `v₁` (shadowing), and holds the two functions.
`f` has one parameter `p` whose default is the expression `y`; `g` has one
parameter `q` with no default. -/
def c3Env (v₁ v₂ : Value) : State :=
  ⟨[⟨[("y", v₂)], none⟩,
    ⟨[("y", v₁),
      ("f", .func ⟨"f", [("p", some (.ident "y"))],
        [.returnStmt (some (.ident "p"))], 0⟩),
      ("g", .func ⟨"g", [("q", none)], [], 0⟩)], some 0⟩],
   [], [], [], [], []⟩

/-- The state of `c3Env (.int 1) (.int 2)` right after `callVoltFunction`
allocates the callee frame (index 2, chained to the closure frame 0). -/
def c3SA : State :=
  { c3Env (.int 1) (.int 2) with
      envs := (c3Env (.int 1) (.int 2)).envs ++ [⟨[], some 0⟩] }

/-- A three-frame chain (2 → 1 → 0) whose root frame binds `x`, for the
assignment claim. -/
def c5S : State :=
  ⟨[⟨[("x", .int 1)], none⟩, ⟨[], some 0⟩, ⟨[], some 1⟩], [], [], [], [], []⟩

/-- Method `m` of class `A`, for the lookup-order claim. -/
def c8MFn : FuncData := ⟨"m", [], [.returnStmt (some (.numInt 1))], 0⟩

/-- Class `A` defines `m` and a method also named `p`. -/
def c8A : ClassVal :=
  .mk "A" none
    [("m", c8MFn), ("p", ⟨"p", [], [.returnStmt (some (.numInt 2))], 0⟩)] 0

/-- Class `B extends A` with no own methods. -/
def c8B : ClassVal := .mk "B" (some c8A) [] 0

/-- The function stored as the instance-owned property `p`. -/
def c8PropFn : FuncData := ⟨"<lambda>", [], [.returnStmt (some (.numInt 77))], 0⟩

def c8Props : List (String × Value) := [("p", .func c8PropFn)]

/-- A state holding one `B` instance (reference 0) whose property `p`
shadows the class method `p`. -/
def c8S : State := ⟨[⟨[], none⟩], [], [], [(c8B, c8Props)], [], []⟩

/-- `c8S` after calling the property function: one call frame allocated. -/
def c8SAfterP : State :=
  ⟨[⟨[], none⟩, ⟨[], some 0⟩], [], [], [(c8B, c8Props)], [], []⟩

/-- Left and right dictionary contents for the `+` claim (shared key "b"). -/
def c7D1 : List (Value × Value) := [(.str "a", .int 1), (.str "b", .int 2)]

def c7D2 : List (Value × Value) := [(.str "b", .int 9), (.str "c", .int 3)]

/-- A state with two list cells and two dictionary cells, for the `+`
claim's witnesses. -/
def c7S : State := ⟨[⟨[], none⟩], [[.int 1], [.int 2]], [c7D1, c7D2], [], [], []⟩

/-- Concrete state for the C10 witness: one global frame and one list cell
holding `[3, 1, 2]`. -/
def c10S : State := ⟨[⟨[], none⟩], [[.int 3, .int 1, .int 2]], [], [], [], []⟩

-- ── Lemmas about the Python number grammar ──────────────────────────────

lemma dropSpaces_mem (cs : List Char) (c : Char) (hc : c ∈ cs) :
    isSpaceChar c = true ∨ c ∈ dropSpaces cs := by
  induction cs with
  | nil => cases hc
  | cons d rest ih =>
    simp only [dropSpaces]
    by_cases hd : isSpaceChar d = true
    · rw [if_pos hd]
      rcases List.mem_cons.mp hc with rfl | h
      · exact Or.inl hd
      · exact ih h
    · rw [if_neg hd]
      exact Or.inr hc

lemma dropSpaces_nil_mem (cs : List Char) (h : dropSpaces cs = []) :
    ∀ c ∈ cs, isSpaceChar c = true := by
  induction cs with
  | nil => intro c hc; cases hc
  | cons d rest ih =>
    intro c hc
    simp only [dropSpaces] at h
    by_cases hd : isSpaceChar d = true
    · rw [if_pos hd] at h
      rcases List.mem_cons.mp hc with rfl | hmem
      · exact hd
      · exact ih h c hmem
    · rw [if_neg hd] at h
      exact absurd h (List.cons_ne_nil _ _)

lemma digitsLoop_cons_digit (c : Char) (rest : List Char) (acc cnt : Nat)
    (h : c.isDigit = true) :
    digitsLoop (c :: rest) acc cnt
      = digitsLoop rest (acc * 10 + (c.toNat - 48)) (cnt + 1) := by
  rw [digitsLoop.eq_def]
  dsimp only
  rw [if_pos h]

lemma digitsLoop_us_digit (c2 : Char) (rest2 : List Char) (acc cnt : Nat)
    (h : c2.isDigit = true) :
    digitsLoop ('_' :: c2 :: rest2) acc cnt
      = digitsLoop rest2 (acc * 10 + (c2.toNat - 48)) (cnt + 1) := by
  rw [digitsLoop.eq_def]
  dsimp only
  rw [if_neg (by decide), if_pos rfl]
  rw [if_pos h]

lemma digitsLoop_us_stop (c2 : Char) (rest2 : List Char) (acc cnt : Nat)
    (h : ¬c2.isDigit = true) :
    digitsLoop ('_' :: c2 :: rest2) acc cnt = (acc, cnt, '_' :: c2 :: rest2) := by
  rw [digitsLoop.eq_def]
  dsimp only
  rw [if_neg (by decide), if_pos rfl]
  rw [if_neg h]

lemma digitsLoop_us_end (acc cnt : Nat) :
    digitsLoop ['_'] acc cnt = (acc, cnt, ['_']) := by
  rw [digitsLoop.eq_def]
  dsimp only
  rw [if_neg (by decide), if_pos rfl]

lemma digitsLoop_stop (c : Char) (rest : List Char) (acc cnt : Nat)
    (h : ¬c.isDigit = true) (h2 : ¬c = '_') :
    digitsLoop (c :: rest) acc cnt = (acc, cnt, c :: rest) := by
  rw [digitsLoop.eq_def]
  dsimp only
  rw [if_neg h, if_neg h2]

lemma digitsLoop_mem (cs : List Char) (acc cnt : Nat) :
    ∀ c ∈ cs, c.isDigit = true ∨ c = '_' ∨ c ∈ (digitsLoop cs acc cnt).2.2 := by
  induction cs, acc, cnt using digitsLoop.induct with
  | case1 acc cnt => intro c hc; cases hc
  | case2 c rest acc cnt hdig ih =>
    have e := digitsLoop_cons_digit c rest acc cnt hdig
    intro d hd
    rcases List.mem_cons.mp hd with rfl | hmem
    · exact Or.inl hdig
    · rcases ih d hmem with h | h | h
      · exact Or.inl h
      · exact Or.inr (Or.inl h)
      · rw [e]
        exact Or.inr (Or.inr h)
  | case3 acc cnt c2 rest2 hdig2 hnd ih =>
    have e := digitsLoop_us_digit c2 rest2 acc cnt hdig2
    intro d hd
    rcases List.mem_cons.mp hd with rfl | hmem
    · exact Or.inr (Or.inl rfl)
    · rcases List.mem_cons.mp hmem with rfl | hmem2
      · exact Or.inl hdig2
      · rcases ih d hmem2 with h | h | h
        · exact Or.inl h
        · exact Or.inr (Or.inl h)
        · rw [e]
          exact Or.inr (Or.inr h)
  | case4 acc cnt c2 rest2 hnd2 hnd =>
    have e := digitsLoop_us_stop c2 rest2 acc cnt hnd2
    intro d hd
    rw [e]
    exact Or.inr (Or.inr hd)
  | case5 acc cnt hnd =>
    have e := digitsLoop_us_end acc cnt
    intro d hd
    rw [e]
    exact Or.inr (Or.inr hd)
  | case6 c rest acc cnt hnd hne =>
    have e := digitsLoop_stop c rest acc cnt hnd hne
    intro d hd
    rw [e]
    exact Or.inr (Or.inr hd)

lemma takeSign_other (d : Char) (rest : List Char) (h1 : d ≠ '+') (h2 : d ≠ '-') :
    takeSign (d :: rest) = (false, d :: rest) := by
  simp [takeSign, h1, h2]

lemma takeSign_mem (cs : List Char) (c : Char) (hc : c ∈ cs) :
    c = '+' ∨ c = '-' ∨ c ∈ (takeSign cs).2 := by
  cases cs with
  | nil => cases hc
  | cons d rest =>
    by_cases h1 : d = '+'
    · subst h1
      rcases List.mem_cons.mp hc with rfl | hmem
      · exact Or.inl rfl
      · exact Or.inr (Or.inr hmem)
    · by_cases h2 : d = '-'
      · subst h2
        rcases List.mem_cons.mp hc with rfl | hmem
        · exact Or.inr (Or.inl rfl)
        · exact Or.inr (Or.inr hmem)
      · rw [takeSign_other d rest h1 h2]
        exact Or.inr (Or.inr hc)

/-- Every character of a string accepted by the `int()` grammar is
whitespace, a sign, a digit, or an underscore. -/
lemma pyParseInt_chars (t : String) (n : Int) (h : pyParseInt t = some n) :
    ∀ c ∈ t.data,
      isSpaceChar c = true ∨ c = '+' ∨ c = '-' ∨ c.isDigit = true ∨ c = '_' := by
  intro c hc
  rcases dropSpaces_mem t.data c hc with hsp | hmem
  · exact Or.inl hsp
  rcases takeSign_mem (dropSpaces t.data) c hmem with h1 | h1 | h1
  · exact Or.inr (Or.inl h1)
  · exact Or.inr (Or.inr (Or.inl h1))
  unfold pyParseInt at h
  simp only [] at h
  revert h h1
  rcases htk : takeSign (dropSpaces t.data) with ⟨neg0, cs20⟩
  dsimp only
  cases cs20 with
  | nil => intro hmem2 hparse; cases hmem2
  | cons c0 rest0 =>
    intro hmem2 hparse
    dsimp only at hparse
    by_cases hd0 : c0.isDigit = true
    · rw [if_pos hd0] at hparse
      rcases digitsLoop_mem (c0 :: rest0) 0 0 c hmem2 with hg | hg | hg
      · exact Or.inr (Or.inr (Or.inr (Or.inl hg)))
      · exact Or.inr (Or.inr (Or.inr (Or.inr hg)))
      · revert hparse hg
        rcases hdl : digitsLoop (c0 :: rest0) 0 0 with ⟨nv, cntv, restv⟩
        intro hg2 hparse2
        dsimp only at hparse2 hg2
        by_cases hrest : dropSpaces restv = []
        · exact Or.inl (dropSpaces_nil_mem _ hrest c hparse2)
        · rw [if_neg hrest] at hg2
          cases hg2
    · rw [if_neg hd0] at hparse
      cases hparse

/-- A line containing a dot never parses as a Python int (the int grammar
has no dot), which separates the code's dot-dispatch from the claim's
try-int-first reading only on dot-free floating spellings. -/
lemma pyParseInt_dot (t : String) (hdot : t.data.contains '.' = true) :
    pyParseInt t = none := by
  cases hp : pyParseInt t with
  | none => rfl
  | some n =>
    exfalso
    have hmem : '.' ∈ t.data := by
      have := List.elem_iff.mp hdot
      exact this
    have := pyParseInt_chars t n hp '.' hmem
    exact absurd this (by decide)

-- ── C2: input auto-coercion of the `ask` statement ──────────────────────

/-- C2 counterexample.  The claim says a line that does not parse as an
integer but does parse as a floating number is bound as that floating
value.  The line "1e5" is such a line (float value 100000), yet the code's
coercion — which tries `float` only when the line contains a dot — binds
the raw string "1e5".  The evaluator's ask statement exhibits the same:
with "1e5" on standard input, `x` is bound to the string, not the float. -/
theorem c2_counterexample :
    pyParseInt "1e5" = none ∧
    pyParseFloat "1e5" = some ⟨100000, 1⟩ ∧
    askCoerce "1e5" = Value.str "1e5" ∧
    askCoerceClaim "1e5" = Value.float ⟨100000, 1⟩ ∧
    askCoerce "1e5" ≠ askCoerceClaim "1e5" ∧
    evalAst 10 (.askStmt (.strLit "? ") "x") 0 ⟨[⟨[], none⟩], [], [], [], [], ["1e5"]⟩
      = .ok (.str "1e5") ⟨[⟨[("x", .str "1e5")], none⟩], [], [], [], ["? "], []⟩ := by
  refine ⟨rfl, rfl, rfl, rfl, ?_, rfl⟩
  intro hcontra
  rw [show askCoerce "1e5" = Value.str "1e5" from rfl,
      show askCoerceClaim "1e5" = Value.float ⟨100000, 1⟩ from rfl] at hcontra
  exact Value.noConfusion hcontra

/-- C2 amended: for every input line the bound value is determined in the
claim's order with one change — the floating step applies only when the
line contains a decimal point.  That is: if the line parses as an integer
the integer is bound; otherwise, if it contains a dot and parses as a
floating number, the floating value is bound; otherwise a line equal to
true/false case-insensitively binds the boolean; otherwise the line itself
is bound as a string.  This is provably the coercion the code performs. -/
theorem c2_amended_coercion (line : String) :
    askCoerce line = askCoerceAmended line := by
  unfold askCoerce askCoerceAmended
  by_cases hdot : line.data.contains '.' = true
  · rw [if_pos hdot, pyParseInt_dot line hdot]
    rw [if_pos hdot]
  · rw [if_neg hdot]
    cases hint : pyParseInt line with
    | some n => rfl
    | none => rw [if_neg hdot]

-- ── C9: string-literal escape sequences in the lexer ────────────────────

/-- C9: inside a string literal (delimited by a double or single quote),
a backslash followed by one of n t \ " ' { } 0 contributes the single
corresponding character (newline, tab, backslash, double quote, single
quote, open brace, close brace, NUL) to the string's value, and a
backslash followed by any other character contributes both the backslash
and that character unchanged; scanning then continues with the rest of
the literal. -/
theorem c9_string_escapes (q c : Char) (rest body : List Char)
    (hq : q = Char.ofNat 34 ∨ q = Char.ofNat 39)
    (h : readStringBody q rest = some body) :
    readStringBody q (Char.ofNat 92 :: c :: rest) = some (
      (if c = 'n' then ['\n']
       else if c = 't' then ['\t']
       else if c = Char.ofNat 92 then [Char.ofNat 92]
       else if c = Char.ofNat 34 then [Char.ofNat 34]
       else if c = Char.ofNat 39 then [Char.ofNat 39]
       else if c = Char.ofNat 123 then [Char.ofNat 123]
       else if c = Char.ofNat 125 then [Char.ofNat 125]
       else if c = '0' then [Char.ofNat 0]
       else [Char.ofNat 92, c]) ++ body) := by
  have hqb : ¬(Char.ofNat 92 = q) := by
    rcases hq with rfl | rfl <;> decide
  rw [readStringBody.eq_def]
  dsimp only
  rw [if_neg hqb, if_pos rfl]
  unfold escapeMap
  split_ifs <;> simp [h]

/-- Witness for C9: the escaped pair backslash-n inside a double-quoted
literal yields a newline character, on the concrete remainder `"` (which
closes the literal with empty body). -/
theorem c9_string_escapes_witness :
    ((Char.ofNat 34 = Char.ofNat 34 ∨ Char.ofNat 34 = Char.ofNat 39) ∧
      readStringBody (Char.ofNat 34) [Char.ofNat 34] = some []) ∧
    readStringBody (Char.ofNat 34) [Char.ofNat 92, 'n', Char.ofNat 34] = some ['\n'] := by
  refine ⟨⟨Or.inl rfl, rfl⟩, ?_⟩
  have := c9_string_escapes (Char.ofNat 34) 'n' [Char.ofNat 34] [] (Or.inl rfl) rfl
  simpa using this

-- ── C1: propagation of thrown values through nested try forms ───────────

/-- C1 counterexample.  The claim says a thrown value traverses every
enclosing try form until the innermost try/catch receives it.  In the
program `try { try { throw 42 } finally { show "f" } } catch e { show e }`
the inner try has only a finally clause, so per the claim the value 42
should reach the outer catch and "42" should be printed after "f".  The
interpreter instead swallows the throw at the inner try (its
`except VoltThrowError` branch re-raises nothing when there is no catch
clause): the whole form evaluates to null having printed only "f", and the
outer catch never runs. -/
theorem c1_counterexample :
    evalAst 10 (.tryCatch
        [.tryCatch [.throwStmt (.numInt 42)] none none (some [.showStmt (.strLit "f")])]
        (some "e") (some [.showStmt (.ident "e")]) none) 0 st0
      = .ok .null ⟨[⟨[], none⟩], [], [], [], ["f"], []⟩ := rfl

/-- C1 amended: a thrown value propagates only to the innermost enclosing
try form of any shape.  If that form has a catch clause (with a nonempty
body), the catch clause binds exactly the thrown value in a fresh frame;
if it has no catch clause (a try/finally form), the value is caught and
discarded — the try form completes normally with null — so the value never
traverses a try form on its way to an outer catch.  The finally
composition applies on both paths. -/
theorem c1_amended (fuel : Nat) (tb : List Ast) (env : Nat) (s : State)
    (v : Value) (s₁ : State) (x : String) (cbody : List Ast)
    (hx : x ≠ "") (hcb : cbody ≠ [])
    (hthrow : execBlock fuel tb env s = .sig (.throwV v) s₁) :
    (∀ fin, evalAst (fuel + 1) (.tryCatch tb (some x) (some cbody) fin) env s =
      runFinally fuel fin env
        (execBlock fuel cbody s₁.envs.length
          { s₁ with envs := s₁.envs ++ [⟨[(x, v)], some env⟩] })) ∧
    (∀ fin, evalAst (fuel + 1) (.tryCatch tb none none fin) env s =
      runFinally fuel fin env (.ok .null s₁)) := by
  have hxb : (!strEqB x "" && !cbody.isEmpty) = true := by
    have h1 : strEqB x "" = false := by
      cases hx0 : strEqB x "" with
      | false => rfl
      | true =>
        exfalso
        apply hx
        have hd : x.data = [] := by simpa [strEqB] using hx0
        cases x with
        | mk data =>
          cases hd
          rfl
    have h2 : cbody.isEmpty = false := by
      cases cbody with
      | nil => exact absurd rfl hcb
      | cons a l => rfl
    rw [h1, h2]
    rfl
  constructor
  · intro fin
    show runFinally fuel fin env _ = _
    rw [hthrow]
    dsimp only
    rw [if_pos hxb]
    rfl
  · intro fin
    show runFinally fuel fin env _ = _
    rw [hthrow]

/-- Witness for C1's amended claim, at the concrete body `throw 42` in the
fresh state: the catch clause receives exactly 42, and the catchless form
completes with null. -/
theorem c1_amended_witness :
    ("e" ≠ "" ∧ ([Ast.showStmt (.ident "e")] : List Ast) ≠ [] ∧
      execBlock 5 [Ast.throwStmt (.numInt 42)] 0 st0 = .sig (.throwV (.int 42)) st0) ∧
    evalAst 6 (.tryCatch [.throwStmt (.numInt 42)] (some "e")
        (some [.showStmt (.ident "e")]) none) 0 st0 =
      runFinally 5 none 0
        (execBlock 5 [.showStmt (.ident "e")] 1
          ⟨[⟨[], none⟩, ⟨[("e", .int 42)], some 0⟩], [], [], [], [], []⟩) ∧
    evalAst 6 (.tryCatch [.throwStmt (.numInt 42)] none none none) 0 st0 =
      runFinally 5 none 0 (.ok .null st0) := by
  have h := c1_amended 5 [Ast.throwStmt (.numInt 42)] 0 st0 (.int 42) st0
    "e" [Ast.showStmt (.ident "e")] (by decide) (by simp) rfl
  exact ⟨⟨by decide, by simp, rfl⟩, h.1 none, h.2 none⟩

-- ── C6: short-circuit logical operators ─────────────────────────────────

/-- C6: `a or b` yields the value of `a` when `a` is truthy and otherwise
the value of `b`; `a and b` yields the value of `b` when `a` is truthy and
otherwise the value of `a`.  The operand value itself is returned, never a
coerced boolean, and the right operand expression is not evaluated when the
left operand decides: along those paths the result is exactly the value and
state produced by evaluating `a` alone. -/
theorem c6_short_circuit (fuel : Nat) (a b : Ast) (env : Nat) (s : State)
    (va : Value) (s₁ : State)
    (ha : evalAst fuel a env s = .ok va s₁) :
    (isTruthy s₁ va = true →
      evalAst (fuel + 1) (.binaryOp "or" a b) env s = .ok va s₁ ∧
      evalAst (fuel + 1) (.binaryOp "and" a b) env s = evalAst fuel b env s₁) ∧
    (isTruthy s₁ va = false →
      evalAst (fuel + 1) (.binaryOp "or" a b) env s = evalAst fuel b env s₁ ∧
      evalAst (fuel + 1) (.binaryOp "and" a b) env s = .ok va s₁) := by
  have hne : ("or" : String) ≠ "and" := by decide
  constructor
  · intro ht
    constructor
    · rw [evalAst.eq_def]
      dsimp only
      rw [if_neg hne, if_pos rfl, ha]
      dsimp only
      rw [if_pos ht]
    · rw [evalAst.eq_def]
      dsimp only
      rw [if_pos rfl, ha]
      dsimp only
      rw [if_pos ht]
  · intro hf
    have hf' : ¬isTruthy s₁ va = true := by rw [hf]; exact Bool.false_ne_true
    constructor
    · rw [evalAst.eq_def]
      dsimp only
      rw [if_neg hne, if_pos rfl, ha]
      dsimp only
      rw [if_neg hf']
    · rw [evalAst.eq_def]
      dsimp only
      rw [if_pos rfl, ha]
      dsimp only
      rw [if_neg hf']

/-- Witness for C6 at the concrete operands `a = 7` (truthy, value kept
uncoerced as the integer 7) and `b = show "side"` evidence: with a falsy
left operand `0`, `0 or 5` evaluates the right operand and yields 5. -/
theorem c6_short_circuit_witness :
    (evalAst 5 (.numInt 7) 0 st0 = .ok (.int 7) st0 ∧
      isTruthy st0 (.int 7) = true ∧
      evalAst 6 (.binaryOp "or" (.numInt 7) (.showStmt (.strLit "side"))) 0 st0
        = .ok (.int 7) st0) ∧
    (evalAst 5 (.numInt 0) 0 st0 = .ok (.int 0) st0 ∧
      isTruthy st0 (.int 0) = false ∧
      evalAst 6 (.binaryOp "or" (.numInt 0) (.numInt 5)) 0 st0
        = evalAst 5 (.numInt 5) 0 st0) := by
  refine ⟨⟨rfl, rfl, ?_⟩, ⟨rfl, rfl, ?_⟩⟩
  · exact ((c6_short_circuit 5 (.numInt 7) (.showStmt (.strLit "side")) 0 st0
      (.int 7) st0 rfl).1 rfl).1
  · exact ((c6_short_circuit 5 (.numInt 0) (.numInt 5) 0 st0
      (.int 0) st0 rfl).2 rfl).1

-- ── C3: default arguments evaluate in the caller's environment ──────────

/-- C3: calling any user-defined function or lambda value allocates a
fresh frame chained to the callee's CLOSURE but hands `bindParams` the
CALLER's environment as the default-evaluation scope; a supplied argument
binds positionally and its default expression is never evaluated; a
missing argument with a default is filled by evaluating the default with
`evalAst` in the caller's environment (an error while doing so
propagates); a missing argument with no default fails with the
missing-argument runtime error.  Concretely, in `c3Env` — where the caller
frame binds `y` to `v₁` and the closure frame binds `y` to `v₂` — `f()`
(single parameter defaulting to the expression `y`) returns `v₁` whatever
`v₂` is, and `g()` (defaultless parameter) raises. -/
theorem c3_default_caller_env (fuel : Nat) :
    (∀ (f : FuncData) (args : List Value) (env : Nat) (s : State),
      callVoltFunction (fuel + 1) (.func f) args env s =
        (match bindParams fuel f.name f.params args s.envs.length env
            { s with envs := s.envs ++ [⟨[], some f.closureEnv⟩] } with
         | .ok s₂ =>
            (match execBlock fuel f.body s.envs.length s₂ with
             | .ok _ s₃ => .ok .null s₃
             | .sig (.ret v) s₃ => .ok v s₃
             | .sig g s₃ => .sig g s₃
             | .timeout => .timeout)
         | .sig g s₂ => .sig g s₂
         | .timeout => .timeout)) ∧
    (∀ (fname p : String) (od : Option Ast) (ps : List (String × Option Ast))
        (a : Value) (rest : List Value) (funcEnv callerEnv : Nat) (s : State),
      bindParams (fuel + 1) fname ((p, od) :: ps) (a :: rest) funcEnv callerEnv s
        = bindParams fuel fname ps rest funcEnv callerEnv (envSet s funcEnv p a)) ∧
    (∀ (fname p : String) (d : Ast) (ps : List (String × Option Ast))
        (funcEnv callerEnv : Nat) (s : State) (dv : Value) (s₁ : State),
      evalAst fuel d callerEnv s = .ok dv s₁ →
      bindParams (fuel + 1) fname ((p, some d) :: ps) [] funcEnv callerEnv s
        = bindParams fuel fname ps [] funcEnv callerEnv (envSet s₁ funcEnv p dv)) ∧
    (∀ (fname p : String) (d : Ast) (ps : List (String × Option Ast))
        (funcEnv callerEnv : Nat) (s : State) (g : Sig) (s₁ : State),
      evalAst fuel d callerEnv s = .sig g s₁ →
      bindParams (fuel + 1) fname ((p, some d) :: ps) [] funcEnv callerEnv s
        = .sig g s₁) ∧
    (∀ (fname p : String) (ps : List (String × Option Ast))
        (funcEnv callerEnv : Nat) (s : State),
      bindParams (fuel + 1) fname ((p, none) :: ps) [] funcEnv callerEnv s
        = .sig (.err ("Missing argument '" ++ p ++ "' in call to "
            ++ fname ++ "()")) s) ∧
    (∀ v₁ v₂ : Value,
      (∃ s', evalAst 10 (.functionCall "f" []) 1 (c3Env v₁ v₂) = .ok v₁ s') ∧
      (∃ s', evalAst 10 (.functionCall "g" []) 1 (c3Env v₁ v₂)
        = .sig (.err "Missing argument 'q' in call to g()") s')) := by
  refine ⟨fun f args env s => rfl, fun fname p od ps a rest fe ce s => rfl,
    ?_, ?_, fun fname p ps fe ce s => rfl,
    fun v₁ v₂ => ⟨⟨_, rfl⟩, ⟨_, rfl⟩⟩⟩
  · intro fname p d ps fe ce s dv s₁ h
    rw [bindParams.eq_def]
    dsimp only
    rw [h]
  · intro fname p d ps fe ce s g s₁ h
    rw [bindParams.eq_def]
    dsimp only
    rw [h]

/-- Witness for C3 on `c3Env`: in the caller frame (1) `y` is `1`, in the
callee frame (2, chained to the closure frame 0 where `y` is `2`) it is
`2`; binding `f`'s parameter `p` (default `y`) with no argument evaluates
`y` in the CALLER's environment and binds `1`, an undefined default
propagates its error, and `g`'s defaultless parameter `q` raises the
missing-argument error; the complete calls `f()` and `g()` behave
accordingly. -/
theorem c3_default_caller_env_witness :
    (bindParams 9 "f" [("p", some (.ident "y"))] [] 2 1 c3SA
        = bindParams 8 "f" [] [] 2 1 (envSet c3SA 2 "p" (.int 1))) ∧
    (bindParams 9 "f" [("p", some (.ident "zz"))] [] 2 1 c3SA
        = .sig (.err "Undefined variable: 'zz'") c3SA) ∧
    (bindParams 9 "g" [("q", none)] [] 2 1 c3SA
        = .sig (.err "Missing argument 'q' in call to g()") c3SA) ∧
    (evalAst 8 (.ident "y") 1 c3SA = .ok (.int 1) c3SA) ∧
    (evalAst 8 (.ident "y") 2 c3SA = .ok (.int 2) c3SA) ∧
    (∃ s', evalAst 10 (.functionCall "f" []) 1 (c3Env (.int 1) (.int 2))
        = .ok (.int 1) s') ∧
    (∃ s', evalAst 10 (.functionCall "g" []) 1 (c3Env (.int 1) (.int 2))
        = .sig (.err "Missing argument 'q' in call to g()") s') := by
  have h := c3_default_caller_env 8
  exact ⟨h.2.2.1 "f" "p" (.ident "y") [] 2 1 c3SA (.int 1) c3SA rfl,
    h.2.2.2.1 "f" "p" (.ident "zz") [] 2 1 c3SA
      (.err "Undefined variable: 'zz'") c3SA rfl,
    h.2.2.2.2.1 "g" "q" [] 2 1 c3SA,
    rfl, rfl, ⟨_, rfl⟩, ⟨_, rfl⟩⟩

-- ── C4: the finally clause and non-error control signals ────────────────

lemma catch_guard_true (x : String) (cbody : List Ast)
    (hx : x ≠ "") (hcb : cbody ≠ []) :
    (!strEqB x "" && !cbody.isEmpty) = true := by
  have h1 : strEqB x "" = false := by
    cases hx0 : strEqB x "" with
    | false => rfl
    | true =>
      exfalso
      apply hx
      have hd : x.data = [] := by simpa [strEqB] using hx0
      cases x with
      | mk data =>
        cases hd
        rfl
  have h2 : cbody.isEmpty = false := by
    cases cbody with
    | nil => exact absurd rfl hcb
    | cons a l => rfl
  rw [h1, h2]
  rfl

/-- C4: for a try form with a finally clause, in each of the five body
outcomes — normal completion, throw, return, break, continue — the finally
block is executed exactly once, on the state the body (and, for a caught
throw, the catch clause) left behind, before the result leaves the try
form; and the control signals return, break and continue pass the form
untouched without ever reaching a catch clause (the conclusion is the same
for every `cv`/`cb`).  A signal raised by the finally block itself replaces
the pending one, as in the host's finally semantics. -/
theorem c4_finally_runs (fuel : Nat) (tb : List Ast) (cv : Option String)
    (cb : Option (List Ast)) (fb : List Ast) (env : Nat) (s : State) :
    (∀ v s₁, execBlock (fuel + 1) tb env s = .ok v s₁ →
      evalAst (fuel + 2) (.tryCatch tb cv cb (some fb)) env s =
        (match execBlock fuel fb env s₁ with
         | .ok _ s₂ => .ok v s₂
         | .sig g s₂ => .sig g s₂
         | .timeout => .timeout)) ∧
    (∀ v s₁, execBlock (fuel + 1) tb env s = .sig (.ret v) s₁ →
      evalAst (fuel + 2) (.tryCatch tb cv cb (some fb)) env s =
        (match execBlock fuel fb env s₁ with
         | .ok _ s₂ => .sig (.ret v) s₂
         | .sig g s₂ => .sig g s₂
         | .timeout => .timeout)) ∧
    (∀ s₁, execBlock (fuel + 1) tb env s = .sig .brk s₁ →
      evalAst (fuel + 2) (.tryCatch tb cv cb (some fb)) env s =
        (match execBlock fuel fb env s₁ with
         | .ok _ s₂ => .sig .brk s₂
         | .sig g s₂ => .sig g s₂
         | .timeout => .timeout)) ∧
    (∀ s₁, execBlock (fuel + 1) tb env s = .sig .cont s₁ →
      evalAst (fuel + 2) (.tryCatch tb cv cb (some fb)) env s =
        (match execBlock fuel fb env s₁ with
         | .ok _ s₂ => .sig .cont s₂
         | .sig g s₂ => .sig g s₂
         | .timeout => .timeout)) ∧
    (∀ v s₁, execBlock (fuel + 1) tb env s = .sig (.throwV v) s₁ →
      evalAst (fuel + 2) (.tryCatch tb none none (some fb)) env s =
        (match execBlock fuel fb env s₁ with
         | .ok _ s₂ => .ok .null s₂
         | .sig g s₂ => .sig g s₂
         | .timeout => .timeout)) ∧
    (∀ v s₁ x cbody, x ≠ "" → cbody ≠ [] →
      execBlock (fuel + 1) tb env s = .sig (.throwV v) s₁ →
      evalAst (fuel + 2) (.tryCatch tb (some x) (some cbody) (some fb)) env s =
        runFinally (fuel + 1) (some fb) env
          (execBlock (fuel + 1) cbody s₁.envs.length
            { s₁ with envs := s₁.envs ++ [⟨[(x, v)], some env⟩] })) ∧
    (∀ g s₁, runFinally (fuel + 1) (some fb) env (.sig g s₁) =
      (match execBlock fuel fb env s₁ with
       | .ok _ s₂ => .sig g s₂
       | .sig g2 s₂ => .sig g2 s₂
       | .timeout => .timeout)) := by
  refine ⟨?_, ?_, ?_, ?_, ?_, ?_, ?_⟩
  · intro v s₁ hb
    rw [evalAst.eq_def]
    dsimp only
    rw [hb]
    rfl
  · intro v s₁ hb
    rw [evalAst.eq_def]
    dsimp only
    rw [hb]
    rfl
  · intro s₁ hb
    rw [evalAst.eq_def]
    dsimp only
    rw [hb]
    rfl
  · intro s₁ hb
    rw [evalAst.eq_def]
    dsimp only
    rw [hb]
    rfl
  · intro v s₁ hb
    rw [evalAst.eq_def]
    dsimp only
    rw [hb]
    rfl
  · intro v s₁ x cbody hx hcb hb
    rw [evalAst.eq_def]
    dsimp only
    rw [hb]
    dsimp only
    rw [if_pos (catch_guard_true x cbody hx hcb)]
    rfl
  · intro g s₁
    rfl

/-- Witness for C4: each of the five body outcomes at concrete programs,
with finally block `show "fin"`, applied through `c4_finally_runs`; in each
case "fin" is printed exactly once and the signal or value survives the
form, even in the presence of the catch clause `catch e {show e}`. -/
theorem c4_finally_runs_witness :
    (execBlock 4 [Ast.numInt 1] 0 st0 = .ok (.int 1) st0 ∧
      evalAst 5 (.tryCatch [.numInt 1] (some "e") (some [.showStmt (.ident "e")])
          (some [.showStmt (.strLit "fin")])) 0 st0
        = .ok (.int 1) ⟨[⟨[], none⟩], [], [], [], ["fin"], []⟩) ∧
    (execBlock 4 [Ast.returnStmt (some (.numInt 2))] 0 st0 = .sig (.ret (.int 2)) st0 ∧
      evalAst 5 (.tryCatch [.returnStmt (some (.numInt 2))] (some "e")
          (some [.showStmt (.ident "e")]) (some [.showStmt (.strLit "fin")])) 0 st0
        = .sig (.ret (.int 2)) ⟨[⟨[], none⟩], [], [], [], ["fin"], []⟩) ∧
    (execBlock 4 [Ast.breakStmt] 0 st0 = .sig .brk st0 ∧
      evalAst 5 (.tryCatch [.breakStmt] (some "e") (some [.showStmt (.ident "e")])
          (some [.showStmt (.strLit "fin")])) 0 st0
        = .sig .brk ⟨[⟨[], none⟩], [], [], [], ["fin"], []⟩) ∧
    (execBlock 4 [Ast.continueStmt] 0 st0 = .sig .cont st0 ∧
      evalAst 5 (.tryCatch [.continueStmt] (some "e") (some [.showStmt (.ident "e")])
          (some [.showStmt (.strLit "fin")])) 0 st0
        = .sig .cont ⟨[⟨[], none⟩], [], [], [], ["fin"], []⟩) ∧
    (execBlock 4 [Ast.throwStmt (.numInt 9)] 0 st0 = .sig (.throwV (.int 9)) st0 ∧
      evalAst 5 (.tryCatch [.throwStmt (.numInt 9)] none none
          (some [.showStmt (.strLit "fin")])) 0 st0
        = .ok .null ⟨[⟨[], none⟩], [], [], [], ["fin"], []⟩) ∧
    ("e" ≠ "" ∧ ([Ast.showStmt (.ident "e")] : List Ast) ≠ [] ∧
      evalAst 5 (.tryCatch [.throwStmt (.numInt 9)] (some "e")
          (some [.showStmt (.ident "e")]) (some [.showStmt (.strLit "fin")])) 0 st0
        = .ok .null ⟨[⟨[], none⟩, ⟨[("e", .int 9)], some 0⟩], [], [], [], ["9", "fin"], []⟩) := by
  refine ⟨⟨rfl, ?_⟩, ⟨rfl, ?_⟩, ⟨rfl, ?_⟩, ⟨rfl, ?_⟩, ⟨rfl, ?_⟩, by decide, by simp, ?_⟩
  · exact (c4_finally_runs 3 [.numInt 1] (some "e") (some [.showStmt (.ident "e")])
      [.showStmt (.strLit "fin")] 0 st0).1 (.int 1) st0 rfl
  · exact (c4_finally_runs 3 [.returnStmt (some (.numInt 2))] (some "e")
      (some [.showStmt (.ident "e")]) [.showStmt (.strLit "fin")] 0 st0).2.1 (.int 2) st0 rfl
  · exact (c4_finally_runs 3 [.breakStmt] (some "e") (some [.showStmt (.ident "e")])
      [.showStmt (.strLit "fin")] 0 st0).2.2.1 st0 rfl
  · exact (c4_finally_runs 3 [.continueStmt] (some "e") (some [.showStmt (.ident "e")])
      [.showStmt (.strLit "fin")] 0 st0).2.2.2.1 st0 rfl
  · exact (c4_finally_runs 3 [.throwStmt (.numInt 9)] none none
      [.showStmt (.strLit "fin")] 0 st0).2.2.2.2.1 (.int 9) st0 rfl
  · exact (c4_finally_runs 3 [.throwStmt (.numInt 9)] none none
      [.showStmt (.strLit "fin")] 0 st0).2.2.2.2.2.1 (.int 9) st0 "e"
      [.showStmt (.ident "e")] (by decide) (by simp) rfl

-- ── C5: assignment to a plain identifier ────────────────────────────────

lemma lookupStr_setStr_self (l : List (String × Value)) (x : String) (v : Value) :
    lookupStr (setStr l x v) x = some v := by
  induction l with
  | nil => simp [setStr, lookupStr]
  | cons kv rest ih =>
    obtain ⟨k, w⟩ := kv
    by_cases hk : k = x
    · simp [setStr, lookupStr, hk]
    · simp [setStr, lookupStr, hk, ih]

lemma resolveFrom_succ (frames : List Frame) (x : String) (n id : Nat) :
    resolveFrom frames (n + 1) id x =
      (match frames.get? id with
       | none => none
       | some fr =>
         match lookupStr fr.vars x with
         | some _ => some id
         | none =>
           match fr.parent with
           | none => none
           | some p => resolveFrom frames n p x) := by
  rw [resolveFrom.eq_def]

lemma envUpdateFrom_succ (frames : List Frame) (x : String) (v : Value) (n id : Nat) :
    envUpdateFrom frames (n + 1) id x v =
      (match frames.get? id with
       | none => none
       | some fr =>
         match lookupStr fr.vars x with
         | some _ => some (frames.set id { fr with vars := setStr fr.vars x v })
         | none =>
           match fr.parent with
           | none => none
           | some p => envUpdateFrom frames n p x v) := by
  rw [envUpdateFrom.eq_def]

lemma envUpdateFrom_none (frames : List Frame) (x : String) (v : Value) :
    ∀ fuel id, resolveFrom frames fuel id x = none →
      envUpdateFrom frames fuel id x v = none := by
  intro fuel
  induction fuel with
  | zero => intro id h; rfl
  | succ n ih =>
    intro id h
    rw [resolveFrom_succ] at h
    rw [envUpdateFrom_succ]
    cases hg : frames.get? id with
    | none => rfl
    | some fr =>
      rw [hg] at h
      dsimp only at h
      dsimp only
      cases hl : lookupStr fr.vars x with
      | some w =>
        rw [hl] at h
        cases h
      | none =>
        rw [hl] at h
        dsimp only at h
        dsimp only
        cases hp : fr.parent with
        | none => rfl
        | some p =>
          rw [hp] at h
          exact ih p h

lemma envUpdateFrom_some (frames : List Frame) (x : String) (v : Value) :
    ∀ fuel id f, resolveFrom frames fuel id x = some f →
      ∃ fr, frames.get? f = some fr ∧ (lookupStr fr.vars x).isSome ∧
        envUpdateFrom frames fuel id x v =
          some (frames.set f { fr with vars := setStr fr.vars x v }) := by
  intro fuel
  induction fuel with
  | zero => intro id f h; cases h
  | succ n ih =>
    intro id f h
    rw [resolveFrom_succ] at h
    cases hg : frames.get? id with
    | none =>
      rw [hg] at h
      cases h
    | some fr =>
      rw [hg] at h
      dsimp only at h
      cases hl : lookupStr fr.vars x with
      | some w =>
        rw [hl] at h
        dsimp only at h
        have hfid : f = id := by
          injection h with h2
          exact h2.symm
        subst hfid
        refine ⟨fr, hg, by rw [hl]; rfl, ?_⟩
        rw [envUpdateFrom_succ, hg]
        dsimp only
        rw [hl]
      | none =>
        rw [hl] at h
        dsimp only at h
        cases hp : fr.parent with
        | none =>
          rw [hp] at h
          cases h
        | some p =>
          rw [hp] at h
          obtain ⟨fr', hgf, hlf, heq⟩ := ih p f h
          refine ⟨fr', hgf, hlf, ?_⟩
          rw [envUpdateFrom_succ, hg]
          dsimp only
          rw [hl]
          dsimp only
          rw [hp]
          exact heq

lemma reaches_envGet (s : State) (x : String) (v : Value) :
    ∀ d f, ReachesNS s x d f →
      ∀ frf, s.envs.get? f = some frf → lookupStr frf.vars x = some v →
      ∀ fuel, d < fuel → envLookupFrom s.envs fuel d x = some v := by
  intro d f hreach
  induction hreach with
  | refl d =>
    intro frf hf hlook fuel hfuel
    cases fuel with
    | zero => omega
    | succ n =>
      rw [envLookupFrom.eq_def]
      dsimp only
      rw [hf]
      dsimp only
      rw [hlook]
  | step d p ftgt fr hget hnone hpar hlt hrec ih =>
    intro frf hf hlook fuel hfuel
    cases fuel with
    | zero => omega
    | succ n =>
      rw [envLookupFrom.eq_def]
      dsimp only
      rw [hget]
      dsimp only
      rw [hnone]
      dsimp only
      rw [hpar]
      exact ih frf hf hlook n (by omega)

/-- C5: for `set x = e` with a plain identifier target, writing the value
`v` of `e`:
if some frame on the chain of the current environment already binds `x`,
the INNERMOST such frame (`resolveFrame`) is updated in place — the store
keeps its shape, only that frame's mapping changes — otherwise a fresh
binding is created in the current frame; and afterwards `x` resolves to
`v` from the updated (or current) frame and from every descendant frame
whose chain reaches it without an intervening binding of `x`
(`ReachesNS`), until reassigned. -/
theorem c5_assignment (fuel : Nat) (x : String) (e : Ast) (env : Nat)
    (s : State) (v : Value) (s₁ : State)
    (he : evalAst fuel e env s = .ok v s₁) :
    (∀ f fr, resolveFrame s₁ env x = some f → s₁.envs.get? f = some fr →
      evalAst (fuel + 1) (.assignment (.ident x) e) env s =
        .ok v { s₁ with envs := s₁.envs.set f { fr with vars := setStr fr.vars x v } } ∧
      (∀ d, ReachesNS { s₁ with envs := s₁.envs.set f { fr with vars := setStr fr.vars x v } } x d f →
        envGet { s₁ with envs := s₁.envs.set f { fr with vars := setStr fr.vars x v } } d x
          = some v)) ∧
    (resolveFrame s₁ env x = none → ∀ fr, s₁.envs.get? env = some fr →
      evalAst (fuel + 1) (.assignment (.ident x) e) env s = .ok v (envSet s₁ env x v) ∧
      (∀ d, ReachesNS (envSet s₁ env x v) x d env →
        envGet (envSet s₁ env x v) d x = some v)) := by
  constructor
  · intro f fr hres hfr
    obtain ⟨fr', hgf, hlf, heq⟩ := envUpdateFrom_some s₁.envs x v (env + 1) env f hres
    have hfr2 : fr' = fr := by
      rw [hgf] at hfr
      injection hfr
    subst hfr2
    have hflt : f < s₁.envs.length := by
      rcases List.get?_eq_some.mp hgf with ⟨hh, _⟩
      exact hh
    constructor
    · rw [evalAst.eq_def]
      dsimp only
      rw [he]
      dsimp only
      have hupd : envUpdate s₁ env x v =
          some { s₁ with envs := s₁.envs.set f { fr' with vars := setStr fr'.vars x v } } := by
        unfold envUpdate
        rw [heq]
        rfl
      rw [hupd]
    · intro d hd
      have hget2 : ({ s₁ with envs := s₁.envs.set f { fr' with vars := setStr fr'.vars x v } } : State).envs.get? f
          = some { fr' with vars := setStr fr'.vars x v } := by
        dsimp only
        exact List.get?_set_eq_of_lt _ hflt
      exact reaches_envGet _ x v d f hd _ hget2 (lookupStr_setStr_self fr'.vars x v) (d + 1) (by omega)
  · intro hres fr hfr
    have hnone := envUpdateFrom_none s₁.envs x v (env + 1) env hres
    have henvlt : env < s₁.envs.length := by
      rcases List.get?_eq_some.mp hfr with ⟨hh, _⟩
      exact hh
    have hsetstate : envSet s₁ env x v =
        { s₁ with envs := s₁.envs.set env { fr with vars := setStr fr.vars x v } } := by
      unfold envSet
      rw [hfr]
    constructor
    · rw [evalAst.eq_def]
      dsimp only
      rw [he]
      dsimp only
      have hupd : envUpdate s₁ env x v = none := by
        unfold envUpdate
        rw [hnone]
        rfl
      rw [hupd]
    · intro d hd
      have hget2 : (envSet s₁ env x v).envs.get? env
          = some { fr with vars := setStr fr.vars x v } := by
        rw [hsetstate]
        dsimp only
        exact List.get?_set_eq_of_lt _ henvlt
      exact reaches_envGet _ x v d env hd _ hget2 (lookupStr_setStr_self fr.vars x v) (d + 1) (by omega)

/-- Witness for C5 on a three-frame chain (2 → 1 → 0) where only the root
frame binds `x`: assigning from frame 2 updates frame 0 in place, and `x`
then resolves to the new value from frames 2, 1 and 0; and on the same
chain a fresh name `z` is created in frame 2 itself. -/
theorem c5_assignment_witness :
    (evalAst 3 (.numInt 5) 2 c5S = .ok (.int 5) c5S ∧
      resolveFrame c5S 2 "x" = some 0 ∧
      c5S.envs.get? 0 = some ⟨[("x", .int 1)], none⟩ ∧
      evalAst 4 (.assignment (.ident "x") (.numInt 5)) 2 c5S =
        .ok (.int 5) ⟨[⟨[("x", .int 5)], none⟩, ⟨[], some 0⟩, ⟨[], some 1⟩], [], [], [], [], []⟩ ∧
      envGet ⟨[⟨[("x", .int 5)], none⟩, ⟨[], some 0⟩, ⟨[], some 1⟩], [], [], [], [], []⟩ 2 "x"
        = some (.int 5)) ∧
    (resolveFrame c5S 2 "z" = none ∧
      evalAst 4 (.assignment (.ident "z") (.numInt 7)) 2 c5S =
        .ok (.int 7) (envSet c5S 2 "z" (.int 7))) := by
  have h1 := (c5_assignment 3 "x" (.numInt 5) 2 c5S (.int 5) c5S rfl).1 0
    ⟨[("x", .int 1)], none⟩ rfl rfl
  have h2 := (c5_assignment 3 "z" (.numInt 7) 2 c5S (.int 7) c5S rfl).2 rfl
    ⟨[], some 1⟩ rfl
  refine ⟨⟨rfl, rfl, rfl, h1.1, ?_⟩, rfl, h2.1⟩
  have hreach : ReachesNS ⟨[⟨[("x", .int 5)], none⟩, ⟨[], some 0⟩, ⟨[], some 1⟩],
      [], [], [], [], []⟩ "x" 2 0 :=
    .step 2 1 0 ⟨[], some 1⟩ rfl rfl rfl (by omega)
      (.step 1 0 0 ⟨[], some 0⟩ rfl rfl rfl (by omega) (.refl 0))
  exact h1.2 2 hreach

-- ── C8: instance property / method lookup order ─────────────────────────

lemma findMethod_chain : ∀ (k : ClassVal) (n : String),
    findMethodF k n = (classChain k).findSome? (fun c => lookupFn c.methods n)
  | .mk nm none ms e, n => by
    cases hl : lookupFn ms n with
    | none => simp [findMethodF, classChain, ClassVal.methods, hl]
    | some g => simp [findMethodF, classChain, ClassVal.methods, hl]
  | .mk nm (some p) ms e, n => by
    have ih := findMethod_chain p n
    cases hl : lookupFn ms n with
    | none => simp [findMethodF, classChain, ClassVal.methods, hl, ih]
    | some g => simp [findMethodF, classChain, ClassVal.methods, hl]

/-- C8: on an instance, lookup prefers an instance-owned property over any
class method of the same name — for property access (`VoltInstance.get`)
and for method calls, where a property holding a function is invoked as
the method — and a name not among the instance's properties resolves by
the linear walk up the class chain, taking the first class that defines
it (`List.findSome?` over `classChain`); when neither yields anything,
both access and call raise the corresponding runtime errors. -/
theorem c8_lookup_order :
    (∀ (k : ClassVal) (props : List (String × Value)) (n : String) (v : Value),
      lookupStr props n = some v → instGetProp k props n = some v) ∧
    (∀ (k : ClassVal) (props : List (String × Value)) (n : String),
      lookupStr props n = none →
      instGetProp k props n = (findMethodF k n).map Value.func) ∧
    (∀ (k : ClassVal) (n : String),
      findMethodF k n = (classChain k).findSome? (fun c => lookupFn c.methods n)) ∧
    (∀ (fuel : Nat) (r : Nat) (mname : String) (args : List Value) (env : Nat)
        (s : State) (k : ClassVal) (props : List (String × Value)) (f : FuncData),
      s.insts.get? r = some (k, props) →
      lookupStr props mname = some (.func f) →
      callInstanceMethod (fuel + 1) r mname args env s =
        callVoltFunction fuel (.func f) args env s) ∧
    (∀ (fuel : Nat) (r : Nat) (mname : String) (args : List Value) (env : Nat)
        (s : State) (k : ClassVal) (props : List (String × Value)) (mf : FuncData),
      s.insts.get? r = some (k, props) →
      lookupStr props mname = none →
      findMethodF k mname = some mf →
      callInstanceMethod (fuel + 1) r mname args env s =
        (match bindParams fuel mf.name mf.params args s.envs.length env
            { s with envs := s.envs ++
              [⟨[("this", .inst r), ("__class__", .cls k)], some mf.closureEnv⟩] } with
         | .ok s₂ =>
           (match execBlock fuel mf.body s.envs.length s₂ with
            | .ok _ s₃ => .ok .null s₃
            | .sig (.ret v) s₃ => .ok v s₃
            | .sig g s₃ => .sig g s₃
            | .timeout => .timeout)
         | .sig g s₂ => .sig g s₂
         | .timeout => .timeout)) ∧
    (∀ (fuel : Nat) (r : Nat) (mname : String) (args : List Value) (env : Nat)
        (s : State) (k : ClassVal) (props : List (String × Value)),
      s.insts.get? r = some (k, props) →
      lookupStr props mname = none →
      findMethodF k mname = none →
      callInstanceMethod (fuel + 1) r mname args env s =
        .sig (.err ("'" ++ k.name ++ "' has no method '" ++ mname ++ "'")) s) := by
  refine ⟨?_, ?_, findMethod_chain, ?_, ?_, ?_⟩
  · intro k props n v hl
    unfold instGetProp
    rw [hl]
  · intro k props n hl
    unfold instGetProp
    rw [hl]
  · intro fuel r mname args env s k props f hg hl
    rw [callInstanceMethod.eq_def]
    dsimp only
    rw [hg]
    dsimp only
    rw [hl]
  · intro fuel r mname args env s k props mf hg hl hm
    rw [callInstanceMethod.eq_def]
    dsimp only
    rw [hg]
    dsimp only
    rw [hl]
    dsimp only
    rw [hm]
    rfl
  · intro fuel r mname args env s k props hg hl hm
    rw [callInstanceMethod.eq_def]
    dsimp only
    rw [hg]
    dsimp only
    rw [hl]
    dsimp only
    rw [hm]

/-- Witness for C8: class `B extends A`; `A` defines methods `m` and `p`;
the instance owns a property `p` holding a function.  The property wins
for both access and call; the inherited `m` resolves through the chain to
`A`'s method (the first and only definer); a missing name raises. -/
theorem c8_lookup_order_witness :
    (lookupStr c8Props "p" = some (.func c8PropFn) ∧
      instGetProp c8B c8Props "p" = some (.func c8PropFn)) ∧
    (lookupStr c8Props "m" = none ∧
      instGetProp c8B c8Props "m" = (findMethodF c8B "m").map Value.func ∧
      findMethodF c8B "m" = (classChain c8B).findSome? (fun c => lookupFn c.methods "m") ∧
      findMethodF c8B "m" = some c8MFn) ∧
    (callInstanceMethod 9 0 "p" [] 0 c8S = callVoltFunction 8 (.func c8PropFn) [] 0 c8S ∧
      callInstanceMethod 9 0 "p" [] 0 c8S = .ok (.int 77) c8SAfterP) ∧
    (callInstanceMethod 9 0 "zz" [] 0 c8S =
      .sig (.err "'B' has no method 'zz'") c8S) := by
  have h := c8_lookup_order
  refine ⟨⟨rfl, h.1 c8B c8Props "p" (.func c8PropFn) rfl⟩,
          ⟨rfl, h.2.1 c8B c8Props "m" rfl, h.2.2.1 c8B "m", rfl⟩,
          ⟨h.2.2.2.1 8 0 "p" [] 0 c8S c8B c8Props c8PropFn rfl rfl, rfl⟩,
          h.2.2.2.2.2 8 0 "zz" [] 0 c8S c8B c8Props rfl rfl rfl⟩

-- ── C7: the binary `+` operator ─────────────────────────────────────────

lemma pfEq_symm (a b : PyFloat) (h : pfEq a b = true) : pfEq b a = true := by
  unfold pfEq at *
  exact beq_iff_eq.mpr (eq_of_beq h).symm

lemma pfEq_trans (a b c : PyFloat) (h1 : pfEq a b = true)
    (h2 : pfEq b c = true) (hb : 0 < b.den) : pfEq a c = true := by
  unfold pfEq at *
  have e1 := eq_of_beq h1
  have e2 := eq_of_beq h2
  refine beq_iff_eq.mpr ?_
  have hbd : (b.den : Int) ≠ 0 := by
    have : b.den ≠ 0 := Nat.pos_iff_ne_zero.mp hb
    exact_mod_cast this
  have key : (b.den : Int) * (a.num * c.den) = (b.den : Int) * (c.num * a.den) := by
    calc (b.den : Int) * (a.num * c.den) = (a.num * b.den) * c.den := by ring
    _ = (b.num * a.den) * c.den := by rw [e1]
    _ = (b.num * c.den) * a.den := by ring
    _ = (c.num * b.den) * a.den := by rw [e2]
    _ = (b.den : Int) * (c.num * a.den) := by ring
  exact mul_left_cancel₀ hbd key

lemma strEqB_symm (a b : String) (h : strEqB a b = true) : strEqB b a = true := by
  unfold strEqB at *
  exact beq_iff_eq.mpr (eq_of_beq h).symm

lemma strEqB_trans (a b c : String)
    (h1 : strEqB a b = true) (h2 : strEqB b c = true) : strEqB a c = true := by
  unfold strEqB at *
  exact beq_iff_eq.mpr ((eq_of_beq h1).trans (eq_of_beq h2))

lemma pyEqPrim_symm (a b : Value) (h : pyEqPrim a b = true) : pyEqPrim b a = true := by
  cases a <;> cases b <;>
    first
      | exact Bool.noConfusion h
      | exact h
      | exact pfEq_symm _ _ h
      | exact strEqB_symm _ _ h
      | (cases eq_of_beq h; exact h)

lemma pyEqPrim_trans (a b c : Value) (hw : WfKeyP b)
    (h1 : pyEqPrim a b = true) (h2 : pyEqPrim b c = true) : pyEqPrim a c = true := by
  cases a <;> cases b <;> cases c <;>
    first
      | exact Bool.noConfusion h1
      | exact Bool.noConfusion h2
      | exact h1
      | exact h2
      | exact pfEq_trans _ _ _ h1 h2 Nat.one_pos
      | exact pfEq_trans _ _ _ h1 h2 hw
      | exact strEqB_trans _ _ _ h1 h2
      | (cases eq_of_beq h1; exact h2)

lemma dictLookup_insert_hit (k₀ : Value) (v₀ : Value) (k : Value)
    (hk : pyEqPrim k₀ k = true) (hwk : WfKeyP k) (hwk₀ : WfKeyP k₀) :
    ∀ d, dictLookupVal (dictInsertVal d k₀ v₀) k = some v₀ := by
  intro d
  induction d with
  | nil => simp [dictInsertVal, dictLookupVal, hk]
  | cons kv rest ih =>
    obtain ⟨kc, vc⟩ := kv
    by_cases hc : pyEqPrim kc k₀ = true
    · have hck : pyEqPrim kc k = true := pyEqPrim_trans kc k₀ k hwk₀ hc hk
      simp [dictInsertVal, dictLookupVal, hc, hck]
    · have hck : pyEqPrim kc k = false := by
        cases hck0 : pyEqPrim kc k with
        | false => rfl
        | true =>
          exfalso
          exact hc (pyEqPrim_trans kc k k₀ hwk hck0 (pyEqPrim_symm k₀ k hk))
      simp [dictInsertVal, dictLookupVal, hc, hck, ih]

lemma dictLookup_insert_other (k₀ : Value) (v₀ : Value) (k : Value)
    (hk : pyEqPrim k₀ k = false) (hwk : WfKeyP k) (hwk₀ : WfKeyP k₀) :
    ∀ d, (∀ kv ∈ d, WfKeyP kv.1) →
      dictLookupVal (dictInsertVal d k₀ v₀) k = dictLookupVal d k := by
  intro d
  induction d with
  | nil => intro _; simp [dictInsertVal, dictLookupVal, hk]
  | cons kv rest ih =>
    obtain ⟨kc, vc⟩ := kv
    intro hwd
    have hwkc : WfKeyP kc := hwd (kc, vc) (List.mem_cons_self _ _)
    have hwrest : ∀ kv ∈ rest, WfKeyP kv.1 := fun kv h => hwd kv (List.mem_cons_of_mem _ h)
    by_cases hc : pyEqPrim kc k₀ = true
    · have hck : pyEqPrim kc k = false := by
        cases hck0 : pyEqPrim kc k with
        | false => rfl
        | true =>
          exfalso
          have hk0k : pyEqPrim k₀ k = true :=
            pyEqPrim_trans k₀ kc k hwkc (pyEqPrim_symm kc k₀ hc) hck0
          rw [hk0k] at hk
          exact Bool.noConfusion hk
      simp [dictInsertVal, dictLookupVal, hc, hck]
    · by_cases hck : pyEqPrim kc k = true
      · simp [dictInsertVal, dictLookupVal, hc, hck]
      · simp [dictInsertVal, dictLookupVal, hc, hck, ih hwrest]

lemma dictLookup_none_of_all (k : Value) :
    ∀ d, (∀ kv ∈ d, pyEqPrim kv.1 k = false) → dictLookupVal d k = none := by
  intro d
  induction d with
  | nil => intro _; rfl
  | cons kv rest ih =>
    obtain ⟨kc, vc⟩ := kv
    intro hall
    have h1 : pyEqPrim kc k = false := hall (kc, vc) (List.mem_cons_self _ _)
    simp [dictLookupVal, h1]
    exact ih (fun kv h => hall kv (List.mem_cons_of_mem _ h))

lemma dictInsert_keys_wf (k₀ : Value) (v₀ : Value) (hwk₀ : WfKeyP k₀) :
    ∀ d, (∀ kv ∈ d, WfKeyP kv.1) → ∀ kv ∈ dictInsertVal d k₀ v₀, WfKeyP kv.1 := by
  intro d
  induction d with
  | nil =>
    intro _ kv hkv
    simp [dictInsertVal] at hkv
    rw [hkv]
    exact hwk₀
  | cons kv0 rest ih =>
    obtain ⟨kc, vc⟩ := kv0
    intro hwd kv hkv
    have hwkc : WfKeyP kc := hwd (kc, vc) (List.mem_cons_self _ _)
    have hwrest : ∀ kv ∈ rest, WfKeyP kv.1 := fun kv h => hwd kv (List.mem_cons_of_mem _ h)
    by_cases hc : pyEqPrim kc k₀ = true
    · rw [dictInsertVal, if_pos hc] at hkv
      rcases List.mem_cons.mp hkv with rfl | hmem
      · exact hwkc
      · exact hwrest kv hmem
    · rw [dictInsertVal, if_neg hc] at hkv
      rcases List.mem_cons.mp hkv with rfl | hmem
      · exact hwkc
      · exact ih hwrest kv hmem

/-- The merge used by dict `+` satisfies the claim's lookup law: the right
operand's value wins for keys present in both, otherwise the left's. -/
lemma dictMerge_lookup (k : Value) (hwk : WfKeyP k) :
    ∀ (d₂ d₁ : List (Value × Value)),
      d₂.Pairwise (fun x y => pyEqPrim x.1 y.1 = false) →
      (∀ kv ∈ d₂, WfKeyP kv.1) →
      (∀ kv ∈ d₁, WfKeyP kv.1) →
      dictLookupVal (dictMergeAssoc d₁ d₂) k = mergeSpec d₁ d₂ k := by
  intro d₂
  induction d₂ with
  | nil => intro d₁ _ _ _; rfl
  | cons kv rest ih =>
    obtain ⟨k₀, v₀⟩ := kv
    intro d₁ hpw hw2 hw1
    have hw₀ : WfKeyP k₀ := hw2 (k₀, v₀) (List.mem_cons_self _ _)
    have hw2' : ∀ kv ∈ rest, WfKeyP kv.1 := fun kv h => hw2 kv (List.mem_cons_of_mem _ h)
    have hsep := (List.pairwise_cons.mp hpw).1
    have hpw' := (List.pairwise_cons.mp hpw).2
    have hmerge : dictMergeAssoc d₁ ((k₀, v₀) :: rest)
        = dictMergeAssoc (dictInsertVal d₁ k₀ v₀) rest := rfl
    rw [hmerge, ih (dictInsertVal d₁ k₀ v₀) hpw' hw2'
      (dictInsert_keys_wf k₀ v₀ hw₀ d₁ hw1)]
    unfold mergeSpec
    cases hk₀ : pyEqPrim k₀ k with
    | true =>
      have hrest : dictLookupVal rest k = none := by
        refine dictLookup_none_of_all k rest (fun kv hkv => ?_)
        cases hyk : pyEqPrim kv.1 k with
        | false => rfl
        | true =>
          exfalso
          have : pyEqPrim kv.1 k₀ = true :=
            pyEqPrim_trans kv.1 k k₀ hwk hyk (pyEqPrim_symm k₀ k hk₀)
          have hzero := hsep kv hkv
          rw [pyEqPrim_symm kv.1 k₀ this] at hzero
          exact Bool.noConfusion hzero
      rw [hrest]
      have hcons : dictLookupVal ((k₀, v₀) :: rest) k = some v₀ := by
        simp [dictLookupVal, hk₀]
      rw [hcons]
      exact dictLookup_insert_hit k₀ v₀ k hk₀ hwk hw₀ d₁
    | false =>
      have hcons : dictLookupVal ((k₀, v₀) :: rest) k = dictLookupVal rest k := by
        simp [dictLookupVal, hk₀]
      rw [hcons]
      cases hr : dictLookupVal rest k with
      | some w => rfl
      | none =>
        dsimp only
        exact dictLookup_insert_other k₀ v₀ k hk₀ hwk hw₀ d₁ hw1

set_option maxHeartbeats 1600000 in
/-- C7: evaluation of binary `+` on two operand values.  If either operand
is a string, the other is converted with the canonical stringifier and the
two are concatenated.  If both are lists, the result is a freshly
allocated list holding the concatenation and both operand cells are left
unchanged.  If both are dictionaries, the result is a freshly allocated
dictionary whose lookup takes the right operand's value for keys present
in both and otherwise the left's, with both operand cells unchanged.
Otherwise, for two numbers, the result is their numeric sum (int for two
ints, float when a float is involved). -/
theorem c7_plus_semantics (fuel : Nat) (s : State) :
    (∀ (a : String) (rv : Value) (t : String) (s₁ : State),
      toStringR (fuel + 1) rv s = .ok t s₁ →
      binOpApply (fuel + 2) "+" (.str a) rv s = .ok (.str (a ++ t)) s₁) ∧
    (∀ (lv : Value) (b t : String) (s₁ : State),
      (∀ u, lv ≠ .str u) →
      toStringR (fuel + 1) lv s = .ok t s₁ →
      binOpApply (fuel + 2) "+" lv (.str b) s = .ok (.str (t ++ b)) s₁) ∧
    (∀ r₁ r₂ xs ys, s.lists.get? r₁ = some xs → s.lists.get? r₂ = some ys →
      binOpApply (fuel + 1) "+" (.list r₁) (.list r₂) s =
        .ok (.list s.lists.length) { s with lists := s.lists ++ [xs ++ ys] } ∧
      r₁ ≠ s.lists.length ∧ r₂ ≠ s.lists.length ∧
      (s.lists ++ [xs ++ ys]).get? r₁ = some xs ∧
      (s.lists ++ [xs ++ ys]).get? r₂ = some ys) ∧
    (∀ r₁ r₂ d₁ d₂, s.dicts.get? r₁ = some d₁ → s.dicts.get? r₂ = some d₂ →
      binOpApply (fuel + 1) "+" (.dict r₁) (.dict r₂) s =
        .ok (.dict s.dicts.length) { s with dicts := s.dicts ++ [dictMergeAssoc d₁ d₂] } ∧
      r₁ ≠ s.dicts.length ∧ r₂ ≠ s.dicts.length ∧
      (s.dicts ++ [dictMergeAssoc d₁ d₂]).get? r₁ = some d₁ ∧
      (s.dicts ++ [dictMergeAssoc d₁ d₂]).get? r₂ = some d₂ ∧
      (∀ k, WfKeyP k →
        d₂.Pairwise (fun x y => pyEqPrim x.1 y.1 = false) →
        (∀ kv ∈ d₂, WfKeyP kv.1) → (∀ kv ∈ d₁, WfKeyP kv.1) →
        dictLookupVal (dictMergeAssoc d₁ d₂) k = mergeSpec d₁ d₂ k)) ∧
    (∀ m n : Int, binOpApply (fuel + 1) "+" (.int m) (.int n) s = .ok (.int (m + n)) s) ∧
    (∀ (m : Int) (q : PyFloat),
      binOpApply (fuel + 1) "+" (.int m) (.float q) s
        = .ok (.float (pfAdd (pfOfInt m) q)) s) ∧
    (∀ (q : PyFloat) (n : Int),
      binOpApply (fuel + 1) "+" (.float q) (.int n) s
        = .ok (.float (pfAdd q (pfOfInt n))) s) ∧
    (∀ (q w : PyFloat),
      binOpApply (fuel + 1) "+" (.float q) (.float w) s
        = .ok (.float (pfAdd q w)) s) := by
  refine ⟨?_, ?_, ?_, ?_, ?_, ?_, ?_, ?_⟩
  · intro a rv t s₁ hr
    rw [binOpApply.eq_def]
    dsimp only
    rw [if_pos rfl, plusApply.eq_def]
    dsimp only
    rw [show toStringR (fuel + 1) (.str a) s = .ok a s from rfl]
    dsimp only
    rw [hr]
    cases rv <;> rfl
  · intro lv b t s₁ hns hl
    cases lv with
    | str u => exact absurd rfl (hns u)
    | _ =>
      rw [binOpApply.eq_def]
      dsimp only
      rw [if_pos rfl, plusApply.eq_def]
      dsimp only
      rw [hl]
      dsimp only
      rw [show toStringR (fuel + 1) (.str b) s₁ = .ok b s₁ from rfl]
  · intro r₁ r₂ xs ys h₁ h₂
    have hl₁ : r₁ < s.lists.length := (List.get?_eq_some.mp h₁).1
    have hl₂ : r₂ < s.lists.length := (List.get?_eq_some.mp h₂).1
    refine ⟨?_, Nat.ne_of_lt hl₁, Nat.ne_of_lt hl₂,
      by rw [List.get?_append hl₁]; exact h₁,
      by rw [List.get?_append hl₂]; exact h₂⟩
    rw [binOpApply.eq_def]
    dsimp only
    rw [if_pos rfl, plusApply.eq_def]
    dsimp only
    rw [h₁, h₂]
    rfl
  · intro r₁ r₂ d₁ d₂ h₁ h₂
    have hl₁ : r₁ < s.dicts.length := (List.get?_eq_some.mp h₁).1
    have hl₂ : r₂ < s.dicts.length := (List.get?_eq_some.mp h₂).1
    refine ⟨?_, Nat.ne_of_lt hl₁, Nat.ne_of_lt hl₂,
      by rw [List.get?_append hl₁]; exact h₁,
      by rw [List.get?_append hl₂]; exact h₂,
      fun k hwk hpw hw2 hw1 => dictMerge_lookup k hwk d₂ d₁ hpw hw2 hw1⟩
    rw [binOpApply.eq_def]
    dsimp only
    rw [if_pos rfl, plusApply.eq_def]
    dsimp only
    rw [h₁, h₂]
    rfl
  · intro m n
    rfl
  · intro m q
    rfl
  · intro q n
    rfl
  · intro q w
    rfl

set_option maxHeartbeats 1600000 in
/-- Witness for C7 on a concrete state: `"n=" + 5` concatenates through
the stringifier; `3 + "!"` with a non-string left also concatenates; two
concrete list cells concatenate into a fresh cell leaving both operands
untouched; two dictionary cells merge with the right value winning for the
shared key "b". -/
theorem c7_plus_semantics_witness :
    (toStringR 3 (.int 5) c7S = .ok "5" c7S ∧
      binOpApply 4 "+" (.str "n=") (.int 5) c7S = .ok (.str "n=5") c7S) ∧
    ((∀ u, (Value.int 3) ≠ .str u) ∧
      binOpApply 4 "+" (.int 3) (.str "!") c7S = .ok (.str "3!") c7S) ∧
    (c7S.lists.get? 0 = some [.int 1] ∧ c7S.lists.get? 1 = some [.int 2] ∧
      binOpApply 3 "+" (.list 0) (.list 1) c7S =
        .ok (.list 2) { c7S with lists := c7S.lists ++ [[.int 1, .int 2]] }) ∧
    (c7S.dicts.get? 0 = some c7D1 ∧ c7S.dicts.get? 1 = some c7D2 ∧
      binOpApply 3 "+" (.dict 0) (.dict 1) c7S =
        .ok (.dict 2) { c7S with dicts := c7S.dicts ++ [dictMergeAssoc c7D1 c7D2] } ∧
      dictLookupVal (dictMergeAssoc c7D1 c7D2) (.str "b") = some (.int 9) ∧
      dictLookupVal (dictMergeAssoc c7D1 c7D2) (.str "a") = some (.int 1)) ∧
    binOpApply 3 "+" (.int 20) (.int 22) c7S = .ok (.int 42) c7S := by
  have h := c7_plus_semantics 2 c7S
  refine ⟨⟨rfl, h.1 "n=" (.int 5) "5" c7S rfl⟩,
          ⟨fun u hu => Value.noConfusion hu, h.2.1 (.int 3) "!" "3" c7S
            (fun u hu => Value.noConfusion hu) rfl⟩,
          ⟨rfl, rfl, (h.2.2.1 0 1 [.int 1] [.int 2] rfl rfl).1⟩,
          ⟨rfl, rfl, (h.2.2.2.1 0 1 c7D1 c7D2 rfl rfl).1, rfl, rfl⟩,
          h.2.2.2.2.1 20 22⟩

-- ── C10: list-method heap discipline ────────────────────────────────────
/-- Overwriting a cell never changes the number of cells. -/
theorem listSet_length (s : State) (r : Nat) (zs : List Value) :
    (listSet s r zs).lists.length = s.lists.length := by
  simp [listSet]

/-- After `listSet`, the overwritten cell holds the new contents. -/
theorem listSet_lookup (s : State) (r : Nat) (zs : List Value)
    (h : r < s.lists.length) :
    (listSet s r zs).lists.get? r = some zs :=
  List.get?_set_eq_of_lt zs h

/-- Removing the last element of `ys ++ [z]` gives back `ys`. -/
theorem removeAt_concat (ys : List Value) (z : Value) :
    removeAt (ys ++ [z]) ys.length = ys := by
  simp [removeAt]

/-- The `fill` write loop overwrites exactly the indices
`start, ..., start + k - 1` (all in range) with `val`. -/
theorem fillRangeAux_replicate (k : Nat) :
    ∀ (xs : List Value) (val : Value) (st : Int), 0 ≤ st →
      st.toNat + k ≤ xs.length →
      fillRangeAux xs val st k
        = xs.take st.toNat ++ List.replicate k val ++ xs.drop (st.toNat + k) := by
  induction k with
  | zero =>
    intro xs val st h0 hle
    simp [fillRangeAux]
  | succ k ih =>
    intro xs val st h0 hle
    rw [fillRangeAux]
    rw [show effIdx xs.length st = st.toNat from by
      rw [effIdx, if_neg (not_lt.mpr h0)]]
    rw [ih (xs.set st.toNat val) val (st + 1) (by omega)
      (by rw [List.length_set]; omega)]
    rw [show (st + 1).toNat = st.toNat + 1 from by omega]
    have hlt : st.toNat < xs.length := by omega
    rw [List.drop_set_of_lt val xs
      (show st.toNat < st.toNat + 1 + k by omega)]
    rw [List.set_eq_take_append_cons_drop, if_pos hlt]
    rw [List.take_append_eq_append_take]
    rw [List.take_take, List.length_take]
    rw [show (st.toNat + 1) ⊓ st.toNat = st.toNat by omega]
    rw [show st.toNat ⊓ xs.length = st.toNat by omega]
    rw [show st.toNat + 1 - st.toNat = 1 by omega]
    rw [show st.toNat + 1 + k = st.toNat + (k + 1) by omega]
    simp [List.replicate_succ, List.append_assoc]

/-- Full-list `fill` replaces every element. -/
theorem fillRangeAux_full (xs : List Value) (val : Value) :
    fillRangeAux xs val 0 xs.length = List.replicate xs.length val := by
  have h := fillRangeAux_replicate xs.length xs val 0 (by omega) (by simp)
  simpa using h

/-- C10: for a list cell `r` currently holding `xs`, the methods `sort`,
`reverse`, `slice` and `copy` each allocate a fresh cell (reference
`s.lists.length`, distinct from `r`) and leave the receiver cell holding
exactly `xs`; the mutating methods `push`, `pop`, `shift`, `unshift`,
`insert`, `remove`, `fill` and `clear` return results built with `listSet`
on the receiver cell `r` itself, which keeps the cell count and rewrites
only cell `r`. -/
theorem c10_list_methods (fuel : Nat) (s : State) (r env : Nat)
    (xs : List Value) (h : s.lists.get? r = some xs) :
    (∀ ys, pySorted fuel s xs = .ok ys →
      callListMethod (fuel + 1) r xs "sort" [] env s
        = .ok (.list s.lists.length) { s with lists := s.lists ++ [ys] }) ∧
    (callListMethod (fuel + 1) r xs "reverse" [] env s
        = .ok (.list s.lists.length) { s with lists := s.lists ++ [xs.reverse] }) ∧
    (callListMethod (fuel + 1) r xs "slice" [] env s
        = .ok (.list s.lists.length) { s with lists := s.lists ++ [xs] }) ∧
    (∀ i j : Int, callListMethod (fuel + 1) r xs "slice" [.int i, .int j] env s
        = .ok (.list s.lists.length) { s with lists := s.lists ++ [pySliceL xs i j] }) ∧
    (callListMethod (fuel + 1) r xs "copy" [] env s
        = .ok (.list s.lists.length) { s with lists := s.lists ++ [xs] }) ∧
    (r ≠ s.lists.length ∧ ∀ zs, (s.lists ++ [zs]).get? r = some xs) ∧
    (∀ (a : Value) vs, callListMethod (fuel + 1) r xs "push" (a :: vs) env s
        = .ok (.list r) (listSet s r (xs ++ [a]))) ∧
    (∀ ys z, xs = ys ++ [z] →
      callListMethod (fuel + 1) r xs "pop" [] env s = .ok z (listSet s r ys)) ∧
    (∀ v rest, xs = v :: rest →
      callListMethod (fuel + 1) r xs "shift" [] env s = .ok v (listSet s r rest)) ∧
    (∀ (a : Value) vs, callListMethod (fuel + 1) r xs "unshift" (a :: vs) env s
        = .ok (.list r) (listSet s r (a :: xs))) ∧
    (∀ (i : Int) (b : Value) vs,
      callListMethod (fuel + 1) r xs "insert" (.int i :: b :: vs) env s
        = .ok (.list r) (listSet s r (insertAt xs (insClampIdx xs.length i) b))) ∧
    (∀ (a : Value) vs i, findIdxEqAux fuel s a xs 0 = some (some i) →
      callListMethod (fuel + 1) r xs "remove" (a :: vs) env s
        = .ok (.list r) (listSet s r (removeAt xs i))) ∧
    (∀ val : Value, 0 < xs.length →
      callListMethod (fuel + 1) r xs "fill" [val] env s
        = .ok (.list r) (listSet s r (List.replicate xs.length val))) ∧
    (callListMethod (fuel + 1) r xs "clear" [] env s
        = .ok (.list r) (listSet s r [])) ∧
    (∀ zs, (listSet s r zs).lists.length = s.lists.length ∧
      (listSet s r zs).lists.get? r = some zs) := by
  have hlt : r < s.lists.length := (List.get?_eq_some.mp h).1
  refine ⟨?_, ?_, ?_, ?_, ?_, ?_, ?_, ?_, ?_, ?_, ?_, ?_, ?_, ?_, ?_⟩
  · intro ys hs
    show listMethodBasic (fuel + 1) r xs "sort" [] s = _
    rw [listMethodBasic.eq_def]
    dsimp only
    rw [hs]
    rfl
  · rfl
  · rfl
  · intro i j
    rfl
  · rfl
  · exact ⟨Nat.ne_of_lt hlt, fun zs => by rw [List.get?_append hlt]; exact h⟩
  · intro a vs
    rfl
  · intro ys z hxs
    subst hxs
    show listMethodBasic (fuel + 1) r (ys ++ [z]) "pop" [] s = _
    rw [listMethodBasic.eq_def]
    dsimp only
    rw [if_neg (by simp : ¬((ys ++ [z]).length = 0))]
    rw [List.getLast?_concat]
    dsimp only
    rw [show (ys ++ [z]).length - 1 = ys.length by simp]
    rw [removeAt_concat]
    rfl
  · intro v rest hxs
    subst hxs
    rfl
  · intro a vs
    rfl
  · intro i b vs
    rfl
  · intro a vs i hfind
    show listMethodBasic (fuel + 1) r xs "remove" (a :: vs) s = _
    rw [listMethodBasic.eq_def]
    dsimp only
    rw [hfind]
    rfl
  · intro val hpos
    show listMethodBasic (fuel + 1) r xs "fill" [val] s = _
    rw [listMethodBasic.eq_def]
    dsimp only
    rw [min_self]
    rw [if_neg (by omega : ¬((xs.length : Int) ≤ 0))]
    rw [if_neg (by omega : ¬((0 : Int) < -(xs.length : Int)))]
    rw [show ((xs.length : Int) - 0).toNat = xs.length by omega]
    rw [fillRangeAux_full]
    rfl
  · rfl
  · intro zs
    exact ⟨listSet_length s r zs, listSet_lookup s r zs hlt⟩

/-- Witness for C10 on `c10S` (cell 0 holds `[3, 1, 2]`): `sort` returns a
fresh cell 1 with the sorted copy, `push`, `pop`, `shift`, `remove`, `fill`
and `clear` rewrite cell 0 in place, and the receiver keeps its contents
when a fresh cell is allocated. -/
theorem c10_list_methods_witness :
    (callListMethod 3 0 [.int 3, .int 1, .int 2] "sort" [] 0 c10S
      = .ok (.list 1) { c10S with lists := c10S.lists ++ [[.int 1, .int 2, .int 3]] }) ∧
    (callListMethod 3 0 [.int 3, .int 1, .int 2] "push" [.int 9] 0 c10S
      = .ok (.list 0) (listSet c10S 0 [.int 3, .int 1, .int 2, .int 9])) ∧
    (callListMethod 3 0 [.int 3, .int 1, .int 2] "pop" [] 0 c10S
      = .ok (.int 2) (listSet c10S 0 [.int 3, .int 1])) ∧
    (callListMethod 3 0 [.int 3, .int 1, .int 2] "shift" [] 0 c10S
      = .ok (.int 3) (listSet c10S 0 [.int 1, .int 2])) ∧
    (callListMethod 3 0 [.int 3, .int 1, .int 2] "remove" [.int 1] 0 c10S
      = .ok (.list 0) (listSet c10S 0 [.int 3, .int 2])) ∧
    (callListMethod 3 0 [.int 3, .int 1, .int 2] "fill" [.int 7] 0 c10S
      = .ok (.list 0) (listSet c10S 0 [.int 7, .int 7, .int 7])) ∧
    (callListMethod 3 0 [.int 3, .int 1, .int 2] "clear" [] 0 c10S
      = .ok (.list 0) (listSet c10S 0 [])) ∧
    ((0 : Nat) ≠ c10S.lists.length ∧
      (c10S.lists ++ [[Value.int 1, Value.int 2, Value.int 3]]).get? 0
        = some [Value.int 3, Value.int 1, Value.int 2]) := by
  have h := c10_list_methods 2 c10S 0 0 [.int 3, .int 1, .int 2] rfl
  exact ⟨h.1 [.int 1, .int 2, .int 3] rfl,
    h.2.2.2.2.2.2.1 (.int 9) [],
    h.2.2.2.2.2.2.2.1 [.int 3, .int 1] (.int 2) rfl,
    h.2.2.2.2.2.2.2.2.1 (.int 3) [.int 1, .int 2] rfl,
    h.2.2.2.2.2.2.2.2.2.2.2.1 (.int 1) [] 1 rfl,
    h.2.2.2.2.2.2.2.2.2.2.2.2.1 (.int 7) (by decide),
    h.2.2.2.2.2.2.2.2.2.2.2.2.2.1,
    ⟨h.2.2.2.2.2.1.1, h.2.2.2.2.2.1.2 [.int 1, .int 2, .int 3]⟩⟩

end Volt
